import Mathlib

/-
Verification of the demo-gen pipeline (People.AI-Data-Generator).

Shallow embedding of the Python sources:
  src/demo_gen/activity_planner.py  (ActivityPlanner)
  src/demo_gen/scorecard_client.py  (ScorecardClient)
  src/demo_gen/state_store.py       (StateStore)
  src/demo_gen/runner.py            (DemoGenRunner)
  src/demo_gen/sf_client.py         (SalesforceClient.delete_records_by_run_id)
  src/demo_gen/config.py            (configuration records and validators)

Modelling conventions:
  * Python's `random.Random(key)` is modelled as a deterministic stream of
    raw natural-number draws obtained from a seeding function
    `String -> Nat -> Nat`; each primitive (`randint`, `choice`, `uniform`,
    one step of `sample`) consumes one raw draw.  All theorems quantify over
    the seeding function, so nothing depends on the concrete generator.
  * `datetime.utcnow()` is modelled by an explicit parameter `now : Int`
    (seconds); `timedelta(days=d, hours=h)` is `d*86400 + h*3600` seconds,
    and `strftime("%Y-%m-%d")` (a calendar date) is the floor-division day
    index `t / 86400` (integer division on `Int` floors for the positive
    divisor).
  * Python `int(x)` applied to the non-negative float products in the
    source (`num_emails * 0.85`, `(past_days / total) * (index + 1)`,
    `question_count * coverage_target`) is modelled by exact rational /
    natural floor division; at the magnitudes the program uses these agree
    with the binary64 computation.
  * The md5 digest in StateStore._generate_activity_signature is modelled
    by its preimage string "type:timestamp:subject" (digest collisions are
    outside the model; the colon-joined preimage is kept as-is).
  * SQLite tables are association lists; `INSERT OR IGNORE` is
    insert-if-absent; external calls that may raise are driven by an
    explicit oracle parameter.
-/

namespace DemoGen

/-- Deterministic raw-draw stream standing for a seeded `random.Random`:
a function from draw index to a raw natural, plus the next index. -/
structure RNG where
  stream : Nat → Nat
  idx : Nat

/-- Take one raw draw from the stream. -/
def RNG.next (r : RNG) : Nat × RNG :=
  (r.stream r.idx, ⟨r.stream, r.idx + 1⟩)

/-- Model of `rng.randint(lo, hi)` (inclusive bounds): one raw draw folded
into the range.  The Python call raises for `lo > hi`; theorems therefore
carry `lo ≤ hi` hypotheses. -/
def randint (lo hi : Nat) (r : RNG) : Nat × RNG :=
  let p := r.next
  (lo + p.1 % (hi + 1 - lo), p.2)

/-- Model of `rng.choice(l)`: one raw draw selecting an index.  The default
`d` stands for the `IndexError` on an empty list; every caller in the
source passes a validated non-empty list. -/
def choice (l : List α) (d : α) (r : RNG) : α × RNG :=
  let p := r.next
  (l.getD (p.1 % l.length) d, p.2)

/-- Model of `rng.random()`: a 53-bit uniform draw in [0, 1). -/
def unitDraw (r : RNG) : ℚ × RNG :=
  let p := r.next
  (((p.1 % 2 ^ 53 : ℕ) : ℚ) / 2 ^ 53, p.2)

/-- Model of `rng.uniform(a, b)`: `a + (b - a) * random()`. -/
def uniformDraw (a b : ℚ) (r : RNG) : ℚ × RNG :=
  let p := unitDraw r
  (a + (b - a) * p.1, p.2)

/-- Model of `rng.sample(pool, k)`: `k` draws without replacement (pick an
index, remove the element, recurse).  When the pool is exhausted the Python
call raises; the model returns the shorter list, and theorems carry
`k ≤ pool.length` hypotheses. -/
def sample : List α → Nat → RNG → List α × RNG
  | _, 0, r => ([], r)
  | [], _ + 1, r => ([], r)
  | a :: tl, k + 1, r =>
    let p := r.next
    let i := p.1 % (a :: tl).length
    let x := (a :: tl).getD i a
    let rest := sample ((a :: tl).eraseIdx i) k p.2
    (x :: rest.1, rest.2)

/-- Round a rational to two decimals, modelling Python `round(x, 2)` on the
confidence values. -/
def round2 (q : ℚ) : ℚ := ((round (q * 100) : ℤ) : ℚ) / 100

/-- Round a rational to one decimal, modelling Python `round(x, 1)` on the
scorecard score. -/
def round1 (q : ℚ) : ℚ := ((round (q * 10) : ℤ) : ℚ) / 10

/-! ## Configuration (config.py) -/

/-- MeetingsConfig fields (non-negativity is inherent in `Nat`). -/
structure MeetingsConfig where
  past_min : Nat
  past_max : Nat
  future_min : Nat
  future_max : Nat
  duration_minutes : List Nat
deriving DecidableEq, Repr

/-- EmailsConfig fields. -/
structure EmailsConfig where
  min : Nat
  max : Nat
deriving DecidableEq, Repr

/-- ActivityConfig fields. -/
structure ActivityConfig where
  past_days : Nat
  future_days : Nat
  meetings : MeetingsConfig
  emails : EmailsConfig
  participant_roles : List String
deriving DecidableEq, Repr

/-! ## Activity planner (activity_planner.py) -/

/-- PlannedMeeting: `start_datetime` is absolute seconds (the isoformat
timestamp of the source, order- and equality-faithful). -/
structure PlannedMeeting where
  subject : String
  start_datetime : Int
  duration_minutes : Nat
  whenTag : String
  participants : List String
deriving DecidableEq, Repr

/-- PlannedEmail: `activity_date` is the calendar-day index (the
`%Y-%m-%d` string of the source, order- and equality-faithful). -/
structure PlannedEmail where
  subject : String
  activity_date : Int
  whenTag : String
  participants : List String
deriving DecidableEq, Repr

/-- ActivityPlan. -/
structure ActivityPlan where
  opportunity_id : String
  meetings : List PlannedMeeting
  emails : List PlannedEmail
deriving DecidableEq, Repr

/-- ActivityPlanner._load_meeting_subjects. -/
def meeting_subjects : List String :=
  ["Discovery Call", "Product Demo", "Technical Deep Dive",
   "Stakeholder Alignment", "Executive Briefing",
   "Solution Architecture Review", "Business Requirements Discussion",
   "Evaluation Planning", "Security & Compliance Review",
   "Pricing Discussion", "Implementation Planning",
   "Next Steps & Timeline Review"]

/-- ActivityPlanner._load_email_subjects. -/
def email_subjects : List String :=
  ["Re: Follow-up from our call", "Demo recording and materials",
   "Next steps and action items", "Proposal for review",
   "Re: Technical questions", "Scheduling our next meeting",
   "Additional resources", "Re: Security documentation",
   "Pricing information", "Re: Timeline and implementation",
   "Introduction to our team", "Re: Contract review"]

/-- ActivityPlanner._generate_meeting.  `now` is the `datetime.utcnow()`
observed by the call; `index`/`total` spread the meetings across the
window via `int((window_days / total) * (index + 1))`, and the drawn
business-hour offset (9..17) is added to `now` in both branches. -/
def generate_meeting (cfg : ActivityConfig) (now : Int) (whenTag : String)
    (index total : Nat) (r : RNG) : PlannedMeeting × RNG :=
  let pSubj := choice meeting_subjects "" r
  let pDur := choice cfg.meetings.duration_minutes 0 pSubj.2
  let windowDays := if whenTag = "past" then cfg.past_days else cfg.future_days
  let days : Nat := windowDays * (index + 1) / total
  let pH := randint 9 17 pDur.2
  let delta : Int :=
    (if whenTag = "past" then -(days : Int) else (days : Int)) * 86400
      + (pH.1 : Int) * 3600
  let pN := randint 1 (Nat.min 3 cfg.participant_roles.length) pH.2
  let pP := sample cfg.participant_roles pN.1 pN.2
  (⟨pSubj.1, now + delta, pDur.1, whenTag, pP.1⟩, pP.2)

/-- ActivityPlanner._generate_email.  The day offset is one uniform draw
in [1, window_days] (not spread by index); `activity_date` is the calendar
day of `now ± offset` days. -/
def generate_email (cfg : ActivityConfig) (now : Int) (whenTag : String)
    (r : RNG) : PlannedEmail × RNG :=
  let pSubj := choice email_subjects "" r
  let windowDays := if whenTag = "past" then cfg.past_days else cfg.future_days
  let pD := randint 1 windowDays pSubj.2
  let delta : Int := (if whenTag = "past" then -(pD.1 : Int) else (pD.1 : Int)) * 86400
  let pN := randint 1 (Nat.min 2 cfg.participant_roles.length) pD.2
  let pP := sample cfg.participant_roles pN.1 pN.2
  (⟨pSubj.1, (now + delta) / 86400, whenTag, pP.1⟩, pP.2)

/-- Generate `n` items with indices `i, i+1, ...`, threading the stream in
source order (the `for i in range(n)` loops of create_plan). -/
def genFrom (f : Nat → RNG → α × RNG) : Nat → Nat → RNG → List α × RNG
  | _, 0, r => ([], r)
  | i, n + 1, r =>
    let p := f i r
    let rest := genFrom f (i + 1) n p.2
    (p.1 :: rest.1, rest.2)

/-- ActivityPlanner.create_plan: a fresh stream seeded with
`"{seed}:{opp_id}"`, three count draws, then past meetings, future
meetings, past emails (85% of the total, truncated) and future emails, in
source order. -/
def create_plan (cfg : ActivityConfig) (seedFn : String → Nat → Nat)
    (seed : Nat) (oppId : String) (now : Int) : ActivityPlan :=
  let r : RNG := ⟨seedFn (Nat.repr seed ++ ":" ++ oppId), 0⟩
  let pPast := randint cfg.meetings.past_min cfg.meetings.past_max r
  let pFut := randint cfg.meetings.future_min cfg.meetings.future_max pPast.2
  let pEm := randint cfg.emails.min cfg.emails.max pFut.2
  let numPastEmails := pEm.1 * 85 / 100
  let gPast := genFrom (fun i => generate_meeting cfg now "past" i pPast.1) 0 pPast.1 pEm.2
  let gFut := genFrom (fun i => generate_meeting cfg now "future" i pFut.1) 0 pFut.1 gPast.2
  let gPastE := genFrom (fun _ => generate_email cfg now "past") 0 numPastEmails gFut.2
  let gFutE := genFrom (fun _ => generate_email cfg now "future") 0 (pEm.1 - numPastEmails) gPastE.2
  ⟨oppId, gPast.1 ++ gFut.1, gPastE.1 ++ gFutE.1⟩

/-- Count of meetings in a plan carrying a given temporal bucket
(get_plan_summary's `past_meetings` / `future_meetings`). -/
def countMeetings (p : ActivityPlan) (tag : String) : Nat :=
  (p.meetings.filter (fun m => m.whenTag = tag)).length

/-- Count of emails in a plan carrying a given temporal bucket. -/
def countEmails (p : ActivityPlan) (tag : String) : Nat :=
  (p.emails.filter (fun e => e.whenTag = tag)).length

/-! ## Scorecard client (scorecard_client.py) -/

/-- Scorecard generation mode (pydantic Literal "heuristic" | "llm" | "hybrid"). -/
inductive ScMode
  | heuristic
  | llm
  | hybrid
deriving DecidableEq, Repr

/-- ScorecardsConfig fields; config validation enforces
`0 ≤ coverage_target ≤ 1` and `0 ≤ confidence_floor ≤ 1`. -/
structure ScorecardsConfig where
  templates : List String
  coverage_target : ℚ
  confidence_floor : ℚ
  mode : ScMode
deriving DecidableEq, Repr

/-- One template question (id, question text, category). -/
structure Question where
  id : String
  question : String
  category : String
deriving DecidableEq, Repr

/-- MEDDICCTemplate's seven questions. -/
def meddicc_questions : List Question :=
  [⟨"metrics", "What are the quantifiable business metrics the customer cares about?", "Metrics"⟩,
   ⟨"economic_buyer", "Who is the economic buyer with budget authority?", "Economic Buyer"⟩,
   ⟨"decision_criteria", "What are the formal decision criteria being used?", "Decision Criteria"⟩,
   ⟨"decision_process", "What is the decision process and timeline?", "Decision Process"⟩,
   ⟨"identify_pain", "What is the critical business pain being addressed?", "Identify Pain"⟩,
   ⟨"champion", "Who is our champion and how are they helping us?", "Champion"⟩,
   ⟨"competition", "What competitive alternatives are being considered?", "Competition"⟩]

/-- Association-list lookup by key (models both dict lookup and a SQLite
point query by primary key). -/
def lookupTbl [DecidableEq κ] (k : κ) : List (κ × ν) → Option ν
  | [] => none
  | p :: t => if p.1 = k then some p.2 else lookupTbl k t

/-- ScorecardClient._load_templates: registry mapping each configured
template name to its question list; only "MEDDICC" is known. -/
def load_templates (cfg : ScorecardsConfig) : List (String × List Question) :=
  cfg.templates.filterMap
    (fun n => if n = "MEDDICC" then some (n, meddicc_questions) else none)

/-- One emitted scorecard answer. -/
structure Answer where
  question_id : String
  question : String
  category : String
  answerText : Option String
  confidence : ℚ
deriving DecidableEq, Repr

/-- ScorecardClient._generate_confidence: `round(rng.uniform(0.5, 0.95), 2)`. -/
def generate_confidence (r : RNG) : ℚ × RNG :=
  let p := uniformDraw (1/2) (19/20) r
  (round2 p.1, p.2)

/-- Heuristic answer pools keyed by category
(ScorecardClient._generate_heuristic_answer), with the `.get` default. -/
def heuristic_answer_pool (category : String) : List String :=
  if category = "Metrics" then
    ["Reduce operational costs by 30%", "Improve sales efficiency by 25%",
     "Increase revenue by $2M annually"]
  else if category = "Economic Buyer" then
    ["VP of Sales - confirmed budget authority",
     "CFO - final approval on investments >$100k",
     "Chief Revenue Officer - owns this initiative"]
  else if category = "Decision Criteria" then
    ["ROI >200%, implementation <90 days, enterprise security",
     "Must integrate with existing CRM, scalable to 500+ users",
     "TCO, deployment speed, vendor stability"]
  else if category = "Decision Process" then
    ["Eval complete by Q4, board approval in Dec, go-live Q1",
     "30-day trial, vendor selection by month-end, Q1 implementation",
     "Technical review (2 weeks), procurement (3 weeks), deploy Q4"]
  else if category = "Identify Pain" then
    ["Manual processes costing 20 hours/week per rep",
     "Lack of visibility into pipeline causing missed forecasts",
     "Data scattered across 5 systems, no single source of truth"]
  else if category = "Champion" then
    ["Sales Operations Director - driving evaluation, has executive access",
     "VP Sales - using our solution in prev role, advocating internally",
     "Head of RevOps - aligned on vision, coaching us on internal politics"]
  else if category = "Competition" then
    ["Evaluating Status Quo, Competitor A (concerns: price), Competitor B (concerns: complexity)",
     "Competitor A (incumbent, but lack key features), Build in-house (rejected due to timeline)",
     "Only alternative is status quo - no other vendors in final consideration"]
  else ["Information being gathered"]

/-- Answer-text selection inside the populate loop: an LLM text when mode
allows and a content generator is present (empty text is falsy and falls
through), else the heuristic pool choice, which consumes one draw.
`cg` models the optional ContentGenerator as a total function (exceptions
raised by the collaborator are modelled at the runner level). -/
def answer_text (cfg : ScorecardsConfig) (cg : Option (String → String))
    (q : Question) (r : RNG) : Option String × RNG :=
  let llmRaw : Option String :=
    if cfg.mode = ScMode.llm ∨ cfg.mode = ScMode.hybrid then
      cg.map (fun f => f q.question)
    else none
  let llmText : Option String :=
    match llmRaw with
    | some t => if t = "" then none else some t
    | none => none
  if llmText = none ∧ (cfg.mode = ScMode.heuristic ∨ cfg.mode = ScMode.hybrid) then
    let p := choice (heuristic_answer_pool q.category) "Information being gathered" r
    (some p.1, p.2)
  else (llmText, r)

/-- The per-question loop of populate_scorecard: draw a confidence, drop
the question when it is below the configured floor, otherwise emit the
answer (text selection may consume a draw). -/
def answers_loop (cfg : ScorecardsConfig) (cg : Option (String → String)) :
    List Question → RNG → List Answer × RNG
  | [], r => ([], r)
  | q :: qs, r =>
    let c := generate_confidence r
    if c.1 < cfg.confidence_floor then answers_loop cfg cg qs c.2
    else
      let t := answer_text cfg cg q c.2
      let rest := answers_loop cfg cg qs t.2
      (⟨q.id, q.question, q.category, t.1, c.1⟩ :: rest.1, rest.2)

/-- ScorecardClient.populate_scorecard: look the template up (unknown
names raise ValueError), seed a stream with `"{seed}:{scorecard_id}"`,
sample `int(question_count * coverage_target)` questions without
replacement, then run the answer loop. -/
def populate_scorecard (cfg : ScorecardsConfig) (cg : Option (String → String))
    (seedFn : String → Nat → Nat) (scorecard_id template_name : String)
    (seed : Nat) : Except String (List Answer) :=
  match lookupTbl template_name (load_templates cfg) with
  | none => Except.error ("Unknown template: " ++ template_name)
  | some questions =>
    let r : RNG := ⟨seedFn (Nat.repr seed ++ ":" ++ scorecard_id), 0⟩
    let k : Nat := (Int.floor ((questions.length : ℚ) * cfg.coverage_target)).toNat
    let s := sample questions k r
    Except.ok (answers_loop cfg cg s.1 s.2).1

/-- The number of questions the populate loop will sample for a template
with `n` questions: `int(n * coverage_target)`. -/
def coverage_count (cfg : ScorecardsConfig) (n : Nat) : Nat :=
  (Int.floor ((n : ℚ) * cfg.coverage_target)).toNat

/-- ScorecardClient.create_or_get_scorecard (non-dry-run branch):
`f"sc_{opportunity_id}_{template_name}".lower()`. -/
def create_or_get_scorecard (opportunity_id template_name : String) : String :=
  ("sc_" ++ opportunity_id ++ "_" ++ template_name).toLower

/-- ScorecardClient.compute_score: 0 for an empty answer list, otherwise
`round((avg_confidence * 0.7 + (len / 7) * 0.3) * 100, 1)` — the 7 is
hard-coded in the source ("Assuming 7 questions for MEDDICC"). -/
def compute_score (answers : List Answer) : ℚ :=
  if answers = [] then 0
  else
    let avg := (answers.map Answer.confidence).sum / (answers.length : ℚ)
    let coverage := (answers.length : ℚ) / 7
    round1 ((avg * (7/10) + coverage * (3/10)) * 100)

/-- Result of upsert_scorecard. -/
structure UpsertResult where
  scorecard_id : String
  answers : List Answer
  score : ℚ
  coverage : ℚ
deriving DecidableEq, Repr

/-- ScorecardClient.upsert_scorecard: id, populated answers, score, and
the coverage fraction `len(answers) / question_count`. -/
def upsert_scorecard (cfg : ScorecardsConfig) (cg : Option (String → String))
    (seedFn : String → Nat → Nat) (opportunity_id template_name : String)
    (seed : Nat) : Except String UpsertResult :=
  let scorecard_id := create_or_get_scorecard opportunity_id template_name
  match populate_scorecard cfg cg seedFn scorecard_id template_name seed with
  | Except.error e => Except.error e
  | Except.ok answers =>
    let nq : ℚ :=
      match lookupTbl template_name (load_templates cfg) with
      | some qs => (qs.length : ℚ)
      | none => 0
    Except.ok ⟨scorecard_id, answers, compute_score answers,
               (answers.length : ℚ) / nq⟩

/-! ## State store (state_store.py) -/

/-- StateStore._generate_activity_signature, with the md5 digest modelled
by its preimage `f"{activity_type}:{timestamp}:{subject}"`. -/
def generate_activity_signature (activity_type timestamp subject : String) : String :=
  activity_type ++ ":" ++ timestamp ++ ":" ++ subject

/-- Stored row of the `activities` table (non-key columns). -/
structure ActRow where
  activity_id : String
  activity_type : String
  created_at : String
deriving DecidableEq, Repr

/-- The four SQLite tables as association lists keyed by their primary
keys; `INSERT OR IGNORE` appends only when the key is absent. -/
structure Ledger where
  opportunities : List ((String × String) × String)
  activities : List ((String × String × String) × ActRow)
  scorecards : List ((String × String × String) × (String × String))
  scorecard_answers : List ((String × String × String) × (ℚ × String))
deriving DecidableEq

/-- The freshly initialised store (empty tables). -/
def Ledger.empty : Ledger := ⟨[], [], [], []⟩

/-- `INSERT OR IGNORE`: keep the table unchanged when the key is present,
otherwise append the new row. -/
def insertIfAbsent [DecidableEq κ] (k : κ) (v : ν) (t : List (κ × ν)) : List (κ × ν) :=
  if (lookupTbl k t).isSome then t else t ++ [(k, v)]

/-- StateStore.has_opportunity. -/
def has_opportunity (l : Ledger) (run_id opp_id : String) : Bool :=
  (lookupTbl (run_id, opp_id) l.opportunities).isSome

/-- StateStore.record_opportunity. -/
def record_opportunity (l : Ledger) (run_id opp_id selected_at : String) : Ledger :=
  { l with opportunities := insertIfAbsent (run_id, opp_id) selected_at l.opportunities }

/-- StateStore.has_activity: point lookup by
`(run_id, opp_id, signature)`. -/
def has_activity (l : Ledger) (run_id opp_id activity_type timestamp subject : String) : Bool :=
  (lookupTbl (run_id, opp_id, generate_activity_signature activity_type timestamp subject)
    l.activities).isSome

/-- StateStore.record_activity. -/
def record_activity (l : Ledger)
    (run_id opp_id activity_type timestamp subject activity_id created_at : String) : Ledger :=
  let row : ActRow := ⟨activity_id, activity_type, created_at⟩
  let key := (run_id, opp_id, generate_activity_signature activity_type timestamp subject)
  { l with activities := insertIfAbsent key row l.activities }

/-- StateStore.has_scorecard. -/
def has_scorecard (l : Ledger) (run_id opp_id template : String) : Bool :=
  (lookupTbl (run_id, opp_id, template) l.scorecards).isSome

/-- StateStore.record_scorecard. -/
def record_scorecard (l : Ledger)
    (run_id opp_id scorecard_id template created_at : String) : Ledger :=
  { l with scorecards :=
      insertIfAbsent (run_id, opp_id, template) (scorecard_id, created_at) l.scorecards }

/-- StateStore.has_scorecard_answer. -/
def has_scorecard_answer (l : Ledger) (run_id scorecard_id question_id : String) : Bool :=
  (lookupTbl (run_id, scorecard_id, question_id) l.scorecard_answers).isSome

/-- StateStore.record_scorecard_answer. -/
def record_scorecard_answer (l : Ledger)
    (run_id scorecard_id question_id : String) (confidence : ℚ) (created_at : String) : Ledger :=
  let key := (run_id, scorecard_id, question_id)
  { l with scorecard_answers := insertIfAbsent key (confidence, created_at) l.scorecard_answers }

/-- One ledger write, for stating trace properties of the store. -/
inductive LedgerOp
  | recOpp (run_id opp_id selected_at : String)
  | recAct (run_id opp_id activity_type timestamp subject activity_id created_at : String)
  | recSc (run_id opp_id scorecard_id template created_at : String)
  | recAns (run_id scorecard_id question_id : String) (confidence : ℚ) (created_at : String)

/-- Apply one ledger write. -/
def applyOp (l : Ledger) : LedgerOp → Ledger
  | LedgerOp.recOpp r o s => record_opportunity l r o s
  | LedgerOp.recAct r o ty ts subj aid c => record_activity l r o ty ts subj aid c
  | LedgerOp.recSc r o sid tmpl c => record_scorecard l r o sid tmpl c
  | LedgerOp.recAns r sid q conf c => record_scorecard_answer l r sid q conf c

/-- Apply a sequence of ledger writes in order. -/
def applyOps (l : Ledger) (ops : List LedgerOp) : Ledger :=
  ops.foldl applyOp l

/-- Whether a ledger write is a `record_activity` for the activities key
`(run_id, opp_id, signature)`. -/
def isRecordActFor (run_id opp_id signature : String) : LedgerOp → Prop
  | LedgerOp.recAct r o ty ts subj _ _ =>
      r = run_id ∧ o = opp_id ∧ generate_activity_signature ty ts subj = signature
  | _ => False

instance (run_id opp_id signature : String) (op : LedgerOp) :
    Decidable (isRecordActFor run_id opp_id signature op) := by
  cases op <;> simp [isRecordActFor] <;> infer_instance

/-! ## Runner (runner.py)

The orchestrator is modelled on its external-state (ledger-backed) path.
Candidate processing is sequential, matching the `concurrency <= 1`
branch; within one candidate the source fixes the same total order in
every mode (meetings, then emails, then scorecards).  Exceptions raised
by the external CRM client or the LLM collaborator while applying one
item are driven by oracle parameters: `oracle kind opp key` is `some id`
for a successful create returning `id` and `none` for a raised exception;
`scOracle opp template` is `false` when upsert raises. -/

/-- One outbound create call attempted against the external system
(`sf_client.create_event` / `create_task`). -/
structure CreateCall where
  kind : String
  oppId : String
  subject : String
  timestamp : String
deriving DecidableEq, Repr

/-- Outcome of one planned item. -/
inductive ItemOutcome
  | created (activityId : String)
  | skipped
  | failed
deriving DecidableEq, Repr

/-- One structured log event emitted while processing items
(`meeting_created` / `meeting_skipped` / error, and likewise for emails,
scorecards and whole opportunities). -/
structure ItemEvent where
  kind : String
  oppId : String
  itemKey : String
  outcome : ItemOutcome
deriving DecidableEq, Repr

/-- One `log_error` entry: the stage and the opportunity id it names. -/
structure ErrLog where
  stage : String
  oppId : String
deriving DecidableEq, Repr

/-- Output of one processing step: updated ledger plus the create calls,
events and errors it appended. -/
structure StepOut where
  ledger : Ledger
  creates : List CreateCall
  events : List ItemEvent
  errors : List ErrLog

/-- Sequential composition of a per-item step over a list, threading the
ledger and concatenating the logs (the runner's `for` loops). -/
def foldItems (step : Ledger → α → StepOut) : Ledger → List α → StepOut
  | l, [] => ⟨l, [], [], []⟩
  | l, a :: as =>
    let r1 := step l a
    let r2 := foldItems step r1.ledger as
    ⟨r2.ledger, r1.creates ++ r2.creates, r1.events ++ r2.events, r1.errors ++ r2.errors⟩

/-- The stable identity of a planned meeting used in logs:
timestamp plus subject (the components of its dedup signature). -/
def meetingKey (m : PlannedMeeting) : String :=
  Int.repr m.start_datetime ++ "|" ++ m.subject

/-- The stable identity of a planned email. -/
def emailKey (e : PlannedEmail) : String :=
  Int.repr e.activity_date ++ "|" ++ e.subject

/-- DemoGenRunner._create_meeting: skip when the ledger already has the
signature; otherwise call the external create (which may raise: `none`
from the oracle), logging an error with stage "meeting_creation" and the
opportunity id on failure, else log the creation and record it. -/
def create_meeting (run_id : String) (oracle : String → String → String → Option String)
    (created_at : String) (o : String) (l : Ledger) (m : PlannedMeeting) : StepOut :=
  let ts := Int.repr m.start_datetime
  if has_activity l run_id o "meeting" ts m.subject then
    ⟨l, [], [⟨"meeting", o, meetingKey m, ItemOutcome.skipped⟩], []⟩
  else
    let call : CreateCall := ⟨"event", o, m.subject, ts⟩
    match oracle "meeting" o (meetingKey m) with
    | none =>
      ⟨l, [call], [⟨"meeting", o, meetingKey m, ItemOutcome.failed⟩],
       [⟨"meeting_creation", o⟩]⟩
    | some aid =>
      ⟨record_activity l run_id o "meeting" ts m.subject aid created_at, [call],
       [⟨"meeting", o, meetingKey m, ItemOutcome.created aid⟩], []⟩

/-- DemoGenRunner._create_email, mirroring `_create_meeting` with
activity type "email" and stage "email_creation". -/
def create_email (run_id : String) (oracle : String → String → String → Option String)
    (created_at : String) (o : String) (l : Ledger) (e : PlannedEmail) : StepOut :=
  let ts := Int.repr e.activity_date
  if has_activity l run_id o "email" ts e.subject then
    ⟨l, [], [⟨"email", o, emailKey e, ItemOutcome.skipped⟩], []⟩
  else
    let call : CreateCall := ⟨"task", o, e.subject, ts⟩
    match oracle "email" o (emailKey e) with
    | none =>
      ⟨l, [call], [⟨"email", o, emailKey e, ItemOutcome.failed⟩],
       [⟨"email_creation", o⟩]⟩
    | some aid =>
      ⟨record_activity l run_id o "email" ts e.subject aid created_at, [call],
       [⟨"email", o, emailKey e, ItemOutcome.created aid⟩], []⟩

/-- One template iteration of DemoGenRunner._create_scorecards: skip when
the ledger already has (run, opp, template); otherwise attempt the upsert
(exceptions from the collaborator are `scOracle o tmpl = false`, an
unknown template is the upsert's own error), logging stage
"scorecard_generation" on failure; on success record the scorecard and
each of its answers.  Scorecard creation performs no external create
call. -/
def create_scorecard_step (run_id : String) (scCfg : ScorecardsConfig)
    (cg : Option (String → String)) (seedFn : String → Nat → Nat) (seed : Nat)
    (scOracle : String → String → Bool) (created_at : String) (o : String)
    (l : Ledger) (tmpl : String) : StepOut :=
  if has_scorecard l run_id o tmpl then
    ⟨l, [], [⟨"scorecard", o, tmpl, ItemOutcome.skipped⟩], []⟩
  else if scOracle o tmpl = false then
    ⟨l, [], [⟨"scorecard", o, tmpl, ItemOutcome.failed⟩], [⟨"scorecard_generation", o⟩]⟩
  else
    match upsert_scorecard scCfg cg seedFn o tmpl seed with
    | Except.error _ =>
      ⟨l, [], [⟨"scorecard", o, tmpl, ItemOutcome.failed⟩], [⟨"scorecard_generation", o⟩]⟩
    | Except.ok data =>
      let l1 := record_scorecard l run_id o data.scorecard_id tmpl created_at
      let l2 := data.answers.foldl
        (fun acc a => record_scorecard_answer acc run_id data.scorecard_id a.question_id
          a.confidence created_at) l1
      ⟨l2, [], [⟨"scorecard", o, tmpl, ItemOutcome.created data.scorecard_id⟩], []⟩

/-- Static parameters of one runner invocation.  `planFn` stands for
`activity_planner.create_plan` as invoked during this run — it captures
the wall-clock `now` the run observes, which is why a rerun may see a
different plan function. -/
structure RunParams where
  run_id : String
  planFn : String → ActivityPlan
  oracle : String → String → String → Option String
  scOracle : String → String → Bool
  scCfg : ScorecardsConfig
  cg : Option (String → String)
  seedFn : String → Nat → Nat
  seed : Nat
  created_at : String

/-- DemoGenRunner._process_opportunity: skip the whole candidate when the
ledger already has it; otherwise apply all meetings, then all emails,
then all scorecards (each item independently skippable and failable), and
finally record the opportunity. -/
def process_opportunity (p : RunParams) (l : Ledger) (o : String) : StepOut :=
  if has_opportunity l p.run_id o then
    ⟨l, [], [⟨"opportunity", o, o, ItemOutcome.skipped⟩], []⟩
  else
    let plan := p.planFn o
    let rM := foldItems (create_meeting p.run_id p.oracle p.created_at o) l plan.meetings
    let rE := foldItems (create_email p.run_id p.oracle p.created_at o) rM.ledger plan.emails
    let rS := foldItems
      (create_scorecard_step p.run_id p.scCfg p.cg p.seedFn p.seed p.scOracle p.created_at o)
      rE.ledger p.scCfg.templates
    ⟨record_opportunity rS.ledger p.run_id o p.created_at,
     rM.creates ++ rE.creates ++ rS.creates,
     rM.events ++ rE.events ++ rS.events,
     rM.errors ++ rE.errors ++ rS.errors⟩

/-- DemoGenRunner.run over a selected candidate list: process each
candidate in order against the shared ledger.  The returned creates,
events and errors are those of this run only. -/
def runAll (p : RunParams) (l : Ledger) (opps : List String) : StepOut :=
  foldItems (process_opportunity p) l opps

/-- The per-candidate item identities the orchestrator is expected to
examine: one entry per planned meeting, email and configured template. -/
def itemsOf (plan : ActivityPlan) (templates : List String) (o : String) :
    List (String × String × String) :=
  plan.meetings.map (fun m => ("meeting", o, meetingKey m))
    ++ plan.emails.map (fun e => ("email", o, emailKey e))
    ++ templates.map (fun t => ("scorecard", o, t))

/-- Identity projection of a log event (kind, opportunity, item key) —
everything except the outcome. -/
def eventIdent (e : ItemEvent) : String × String × String :=
  (e.kind, e.oppId, e.itemKey)

/-- The stage name `log_error` uses for a failed item of a given kind. -/
def stageOfKind (kind : String) : String :=
  if kind = "meeting" then "meeting_creation"
  else if kind = "email" then "email_creation"
  else "scorecard_generation"

/-! ## Cleanup (runner.py cleanup_run, sf_client.py delete_records_by_run_id)

`ok rid` is `true` when the external delete of record `rid` succeeds and
`false` when it raises.  Each function also returns the list of records
on which a delete was actually attempted. -/

/-- SalesforceClient.delete_records_by_run_id's loop: delete each tagged
record, counting successes.  The source wraps no try/except around
`obj.delete`, so the first failure propagates as an exception
(`Except.error`), abandoning the loop and the accumulated count. -/
def delete_records_aux (ok : String → Bool) :
    List String → Nat → List String → (Except String Nat) × List String
  | [], n, attempted => (Except.ok n, attempted)
  | rid :: rest, n, attempted =>
    if ok rid then delete_records_aux ok rest (n + 1) (attempted ++ [rid])
    else (Except.error rid, attempted ++ [rid])

/-- SalesforceClient.delete_records_by_run_id (records already filtered
to the given tag/run id). -/
def delete_records_by_run_id (ok : String → Bool) (records : List String) :
    (Except String Nat) × List String :=
  delete_records_aux ok records 0 []

/-- DemoGenRunner.cleanup_run, tag-mode branch: bulk-delete Events then
Tasks by tag; an exception from either bulk delete propagates out of
cleanup_run. -/
def cleanup_run_tag (okE okT : String → Bool)
    (eventRecords taskRecords : List String) :
    (Except String (Nat × Nat)) × List String :=
  let rE := delete_records_by_run_id okE eventRecords
  match rE.1 with
  | Except.error e => (Except.error e, rE.2)
  | Except.ok nE =>
    let rT := delete_records_by_run_id okT taskRecords
    match rT.1 with
    | Except.error e => (Except.error e, rE.2 ++ rT.2)
    | Except.ok nT => (Except.ok (nE, nT), rE.2 ++ rT.2)

/-- DemoGenRunner.cleanup_run, external-state branch: walk the ledger's
activities; unknown activity types are skipped without an attempt; each
delete is wrapped in try/except, so a failure is skipped and the loop
continues; counts reflect successful deletions only. -/
def cleanup_run_external (ok : String → Bool) :
    List (String × String) → (Nat × Nat) × List String
  | [] => ((0, 0), [])
  | (aid, ty) :: rest =>
    let objName : Option String :=
      if ty = "meeting" then some "Event"
      else if ty = "email" then some "Task"
      else none
    match objName with
    | none => cleanup_run_external ok rest
    | some obj =>
      let r := cleanup_run_external ok rest
      if ok aid then
        (((if obj = "Event" then r.1.1 + 1 else r.1.1),
          (if obj = "Event" then r.1.2 else r.1.2 + 1)), aid :: r.2)
      else (r.1, aid :: r.2)

/-! ## Basic lemmas about the random-stream primitives -/

theorem randint_bounds (lo hi : Nat) (r : RNG) (h : lo ≤ hi) :
    lo ≤ (randint lo hi r).1 ∧ (randint lo hi r).1 ≤ hi := by
  have hv : (randint lo hi r).1 = lo + r.stream r.idx % (hi + 1 - lo) := rfl
  rw [hv]
  have hpos : 0 < hi + 1 - lo := by omega
  have := Nat.mod_lt (r.stream r.idx) hpos
  omega

theorem randint_fixed (lo : Nat) (r : RNG) : (randint lo lo r).1 = lo := by
  have hv : (randint lo lo r).1 = lo + r.stream r.idx % (lo + 1 - lo) := rfl
  have h1 : lo + 1 - lo = 1 := by omega
  rw [hv, h1, Nat.mod_one]
  omega

theorem genFrom_length (f : Nat → RNG → α × RNG) (i n : Nat) (r : RNG) :
    (genFrom f i n r).1.length = n := by
  induction n generalizing i r with
  | zero => rfl
  | succ n ih => simp [genFrom, ih]

theorem genFrom_mem (f : Nat → RNG → α × RNG) (i n : Nat) (r : RNG) :
    ∀ x ∈ (genFrom f i n r).1, ∃ j r', x = (f j r').1 := by
  induction n generalizing i r with
  | zero => simp [genFrom]
  | succ n ih =>
    intro x hx
    simp only [genFrom, List.mem_cons] at hx
    rcases hx with h | h
    · exact ⟨i, r, h⟩
    · exact ih _ _ x h

theorem generate_meeting_whenTag (cfg : ActivityConfig) (now : Int) (w : String)
    (i t : Nat) (r : RNG) : ((generate_meeting cfg now w i t r).1).whenTag = w := rfl

theorem generate_email_whenTag (cfg : ActivityConfig) (now : Int) (w : String)
    (r : RNG) : ((generate_email cfg now w r).1).whenTag = w := rfl

/-! ## Structure of a generated plan -/

/-- The meeting and email lists of a plan, decomposed exactly as
create_plan builds them. -/
theorem create_plan_eq (cfg : ActivityConfig) (seedFn : String → Nat → Nat)
    (seed : Nat) (oppId : String) (now : Int) :
    create_plan cfg seedFn seed oppId now =
      (let r : RNG := ⟨seedFn (Nat.repr seed ++ ":" ++ oppId), 0⟩
       let pPast := randint cfg.meetings.past_min cfg.meetings.past_max r
       let pFut := randint cfg.meetings.future_min cfg.meetings.future_max pPast.2
       let pEm := randint cfg.emails.min cfg.emails.max pFut.2
       let numPastEmails := pEm.1 * 85 / 100
       let gPast := genFrom (fun i => generate_meeting cfg now "past" i pPast.1) 0 pPast.1 pEm.2
       let gFut := genFrom (fun i => generate_meeting cfg now "future" i pFut.1) 0 pFut.1 gPast.2
       let gPastE := genFrom (fun _ => generate_email cfg now "past") 0 numPastEmails gFut.2
       let gFutE := genFrom (fun _ => generate_email cfg now "future") 0 (pEm.1 - numPastEmails) gPastE.2
       ⟨oppId, gPast.1 ++ gFut.1, gPastE.1 ++ gFutE.1⟩) := rfl

theorem filter_whenTag_eq_self {l : List PlannedMeeting} {w : String}
    (h : ∀ m ∈ l, m.whenTag = w) :
    l.filter (fun m => m.whenTag = w) = l := by
  rw [List.filter_eq_self]
  intro m hm
  simp [h m hm]

theorem filter_whenTag_eq_nil {l : List PlannedMeeting} {w w' : String}
    (hww : w ≠ w') (h : ∀ m ∈ l, m.whenTag = w) :
    l.filter (fun m => m.whenTag = w') = [] := by
  rw [List.filter_eq_nil_iff]
  intro m hm
  simp [h m hm, hww]

theorem filterE_whenTag_eq_self {l : List PlannedEmail} {w : String}
    (h : ∀ e ∈ l, e.whenTag = w) :
    l.filter (fun e => e.whenTag = w) = l := by
  rw [List.filter_eq_self]
  intro e he
  simp [h e he]

theorem filterE_whenTag_eq_nil {l : List PlannedEmail} {w w' : String}
    (hww : w ≠ w') (h : ∀ e ∈ l, e.whenTag = w) :
    l.filter (fun e => e.whenTag = w') = [] := by
  rw [List.filter_eq_nil_iff]
  intro e he
  simp [h e he, hww]

/-- The four counts of a generated plan, expressed by the three count
draws of create_plan. -/
theorem create_plan_counts (cfg : ActivityConfig) (seedFn : String → Nat → Nat)
    (seed : Nat) (oppId : String) (now : Int) :
    countMeetings (create_plan cfg seedFn seed oppId now) "past"
        = (randint cfg.meetings.past_min cfg.meetings.past_max
            ⟨seedFn (Nat.repr seed ++ ":" ++ oppId), 0⟩).1 ∧
    countMeetings (create_plan cfg seedFn seed oppId now) "future"
        = (randint cfg.meetings.future_min cfg.meetings.future_max
            (randint cfg.meetings.past_min cfg.meetings.past_max
              ⟨seedFn (Nat.repr seed ++ ":" ++ oppId), 0⟩).2).1 ∧
    (create_plan cfg seedFn seed oppId now).emails.length
        = (randint cfg.emails.min cfg.emails.max
            (randint cfg.meetings.future_min cfg.meetings.future_max
              (randint cfg.meetings.past_min cfg.meetings.past_max
                ⟨seedFn (Nat.repr seed ++ ":" ++ oppId), 0⟩).2).2).1 ∧
    countEmails (create_plan cfg seedFn seed oppId now) "past"
        = (create_plan cfg seedFn seed oppId now).emails.length * 85 / 100 ∧
    countEmails (create_plan cfg seedFn seed oppId now) "future"
        = (create_plan cfg seedFn seed oppId now).emails.length
            - (create_plan cfg seedFn seed oppId now).emails.length * 85 / 100 := by
  rw [create_plan_eq]
  simp only []
  set r0 : RNG := ⟨seedFn (Nat.repr seed ++ ":" ++ oppId), 0⟩ with hr0
  set pPast := randint cfg.meetings.past_min cfg.meetings.past_max r0 with hpPast
  set pFut := randint cfg.meetings.future_min cfg.meetings.future_max pPast.2 with hpFut
  set pEm := randint cfg.emails.min cfg.emails.max pFut.2 with hpEm
  set gPast := genFrom (fun i => generate_meeting cfg now "past" i pPast.1) 0 pPast.1 pEm.2
    with hgPast
  set gFut := genFrom (fun i => generate_meeting cfg now "future" i pFut.1) 0 pFut.1 gPast.2
    with hgFut
  set gPastE := genFrom (fun _ => generate_email cfg now "past") 0 (pEm.1 * 85 / 100) gFut.2
    with hgPastE
  set gFutE := genFrom (fun _ => generate_email cfg now "future") 0
    (pEm.1 - pEm.1 * 85 / 100) gPastE.2 with hgFutE
  have hPastAll : ∀ m ∈ gPast.1, m.whenTag = "past" := by
    intro m hm
    obtain ⟨j, r', hj⟩ := genFrom_mem _ _ _ _ m hm
    rw [hj]; exact generate_meeting_whenTag ..
  have hFutAll : ∀ m ∈ gFut.1, m.whenTag = "future" := by
    intro m hm
    obtain ⟨j, r', hj⟩ := genFrom_mem _ _ _ _ m hm
    rw [hj]; exact generate_meeting_whenTag ..
  have hPastEAll : ∀ e ∈ gPastE.1, e.whenTag = "past" := by
    intro e he
    obtain ⟨j, r', hj⟩ := genFrom_mem _ _ _ _ e he
    rw [hj]; exact generate_email_whenTag ..
  have hFutEAll : ∀ e ∈ gFutE.1, e.whenTag = "future" := by
    intro e he
    obtain ⟨j, r', hj⟩ := genFrom_mem _ _ _ _ e he
    rw [hj]; exact generate_email_whenTag ..
  have hne : ("future" : String) ≠ "past" := by decide
  have hne' : ("past" : String) ≠ "future" := by decide
  refine ⟨?_, ?_, ?_, ?_, ?_⟩
  · simp only [countMeetings, List.filter_append,
      filter_whenTag_eq_self hPastAll, filter_whenTag_eq_nil hne hFutAll,
      List.length_append, List.length_nil, Nat.add_zero]
    exact genFrom_length ..
  · simp only [countMeetings, List.filter_append,
      filter_whenTag_eq_nil hne' hPastAll, filter_whenTag_eq_self hFutAll,
      List.length_append, List.length_nil, Nat.zero_add]
    exact genFrom_length ..
  · rw [hgPastE, hgFutE]
    simp only [List.length_append, genFrom_length]
    omega
  · simp only [countEmails, List.filter_append,
      filterE_whenTag_eq_self hPastEAll, filterE_whenTag_eq_nil hne hFutEAll,
      List.length_append, List.length_nil, Nat.add_zero]
    rw [hgPastE, hgFutE]
    simp only [List.length_append, genFrom_length]
    omega
  · simp only [countEmails, List.filter_append,
      filterE_whenTag_eq_nil hne' hPastEAll, filterE_whenTag_eq_self hFutEAll,
      List.length_append, List.length_nil, Nat.zero_add]
    rw [hgPastE, hgFutE]
    simp only [List.length_append, genFrom_length]
    omega

/-! ## Concrete instances used by witnesses -/

/-- A concrete raw-draw seeding function (stands for one fixed seeded
generator when evaluating the model on concrete inputs). -/
def zeroStream : String → Nat → Nat := fun _ _ => 0

/-- The default ActivityConfig of config.py (past_days 45, future_days 21,
meetings 3..8 past / 1..3 future, durations [25, 30, 45, 60], emails
5..20, the four default participant roles). -/
def defaultCfg : ActivityConfig :=
  ⟨45, 21, ⟨3, 8, 1, 3, [25, 30, 45, 60]⟩, ⟨5, 20⟩,
   ["Champion", "Economic Buyer", "Technical Buyer", "Influencer"]⟩

/-- The configuration of the spec's worked example: past_min = past_max =
3, future_min = future_max = 1, email_min = email_max = 5. -/
def exampleCfg : ActivityConfig :=
  ⟨45, 21, ⟨3, 3, 1, 1, [25, 30, 45, 60]⟩, ⟨5, 5⟩,
   ["Champion", "Economic Buyer", "Technical Buyer", "Influencer"]⟩

/-! ## C3: plan counts respect the configured bounds -/

/-- C3: for every configuration accepted by configuration validation
(past_min ≤ past_max, future_min ≤ future_max, emails.min ≤ emails.max;
non-negativity is inherent in ℕ) and every candidate, the generated plan
has between past_min and past_max meetings tagged "past", between
future_min and future_max meetings tagged "future", and between
emails.min and emails.max emails in total. -/
theorem claim_c3_plan_bounds (cfg : ActivityConfig) (seedFn : String → Nat → Nat)
    (seed : Nat) (oppId : String) (now : Int)
    (h1 : cfg.meetings.past_min ≤ cfg.meetings.past_max)
    (h2 : cfg.meetings.future_min ≤ cfg.meetings.future_max)
    (h3 : cfg.emails.min ≤ cfg.emails.max) :
    (cfg.meetings.past_min ≤ countMeetings (create_plan cfg seedFn seed oppId now) "past"
      ∧ countMeetings (create_plan cfg seedFn seed oppId now) "past" ≤ cfg.meetings.past_max)
    ∧ (cfg.meetings.future_min ≤ countMeetings (create_plan cfg seedFn seed oppId now) "future"
      ∧ countMeetings (create_plan cfg seedFn seed oppId now) "future" ≤ cfg.meetings.future_max)
    ∧ (cfg.emails.min ≤ (create_plan cfg seedFn seed oppId now).emails.length
      ∧ (create_plan cfg seedFn seed oppId now).emails.length ≤ cfg.emails.max) := by
  obtain ⟨hcP, hcF, hcE, _, _⟩ := create_plan_counts cfg seedFn seed oppId now
  rw [hcP, hcF, hcE]
  exact ⟨randint_bounds _ _ _ h1, randint_bounds _ _ _ h2, randint_bounds _ _ _ h3⟩

/-- Witness: claim_c3_plan_bounds applied at the default configuration,
seed 42, candidate "OPP-1". -/
theorem claim_c3_plan_bounds_witness :
    (defaultCfg.meetings.past_min ≤ defaultCfg.meetings.past_max
      ∧ defaultCfg.meetings.future_min ≤ defaultCfg.meetings.future_max
      ∧ defaultCfg.emails.min ≤ defaultCfg.emails.max)
    ∧ ((defaultCfg.meetings.past_min
          ≤ countMeetings (create_plan defaultCfg zeroStream 42 "OPP-1" 0) "past"
        ∧ countMeetings (create_plan defaultCfg zeroStream 42 "OPP-1" 0) "past"
          ≤ defaultCfg.meetings.past_max)
      ∧ (defaultCfg.meetings.future_min
          ≤ countMeetings (create_plan defaultCfg zeroStream 42 "OPP-1" 0) "future"
        ∧ countMeetings (create_plan defaultCfg zeroStream 42 "OPP-1" 0) "future"
          ≤ defaultCfg.meetings.future_max)
      ∧ (defaultCfg.emails.min ≤ (create_plan defaultCfg zeroStream 42 "OPP-1" 0).emails.length
        ∧ (create_plan defaultCfg zeroStream 42 "OPP-1" 0).emails.length
          ≤ defaultCfg.emails.max)) :=
  ⟨⟨by decide, by decide, by decide⟩,
   claim_c3_plan_bounds defaultCfg zeroStream 42 "OPP-1" 0 (by decide) (by decide) (by decide)⟩

/-! ## C4: the 85% past/future email split and per-email date windows -/

theorem generate_email_date_past (cfg : ActivityConfig) (now : Int) (r : RNG)
    (h : 1 ≤ cfg.past_days) :
    now / 86400 - (cfg.past_days : Int)
        ≤ ((generate_email cfg now "past" r).1).activity_date
      ∧ ((generate_email cfg now "past" r).1).activity_date ≤ now / 86400 - 1 := by
  obtain ⟨h1, h2⟩ := randint_bounds 1 cfg.past_days (choice email_subjects "" r).2 h
  have hdate : ((generate_email cfg now "past" r).1).activity_date
      = (now + -((((randint 1 cfg.past_days (choice email_subjects "" r).2).1 : Nat) : Int))
          * 86400) / 86400 := by
    simp [generate_email]
  rw [hdate, Int.add_mul_ediv_right _ _ (by norm_num : (86400 : Int) ≠ 0)]
  omega

theorem generate_email_date_future (cfg : ActivityConfig) (now : Int) (r : RNG)
    (h : 1 ≤ cfg.future_days) :
    now / 86400 + 1 ≤ ((generate_email cfg now "future" r).1).activity_date
      ∧ ((generate_email cfg now "future" r).1).activity_date
        ≤ now / 86400 + (cfg.future_days : Int) := by
  obtain ⟨h1, h2⟩ := randint_bounds 1 cfg.future_days (choice email_subjects "" r).2 h
  have hdate : ((generate_email cfg now "future" r).1).activity_date
      = (now + (((randint 1 cfg.future_days (choice email_subjects "" r).2).1 : Nat) : Int)
          * 86400) / 86400 := by
    simp [generate_email]
  rw [hdate, Int.add_mul_ediv_right _ _ (by norm_num : (86400 : Int) ≠ 0)]
  omega

/-- Every email of a generated plan is dated inside its window: a "past"
email lies 1..past_days days before the generation day and a "future"
email 1..future_days days after it. -/
theorem create_plan_email_window (cfg : ActivityConfig) (seedFn : String → Nat → Nat)
    (seed : Nat) (oppId : String) (now : Int) (e : PlannedEmail)
    (hp : 1 ≤ cfg.past_days) (hf : 1 ≤ cfg.future_days)
    (he : e ∈ (create_plan cfg seedFn seed oppId now).emails) :
    (e.whenTag = "past" →
      now / 86400 - (cfg.past_days : Int) ≤ e.activity_date
        ∧ e.activity_date ≤ now / 86400 - 1)
    ∧ (e.whenTag = "future" →
      now / 86400 + 1 ≤ e.activity_date
        ∧ e.activity_date ≤ now / 86400 + (cfg.future_days : Int)) := by
  rw [create_plan_eq] at he
  simp only [List.mem_append] at he
  rcases he with he | he
  · obtain ⟨j, r', hj⟩ := genFrom_mem _ _ _ _ e he
    have htag : e.whenTag = "past" := by rw [hj]; exact generate_email_whenTag ..
    refine ⟨fun _ => ?_, fun hcontra => absurd (htag ▸ hcontra) (by decide)⟩
    rw [hj]
    exact generate_email_date_past cfg now r' hp
  · obtain ⟨j, r', hj⟩ := genFrom_mem _ _ _ _ e he
    have htag : e.whenTag = "future" := by rw [hj]; exact generate_email_whenTag ..
    refine ⟨fun hcontra => absurd (htag ▸ hcontra) (by decide), fun _ => ?_⟩
    rw [hj]
    exact generate_email_date_future cfg now r' hf

/-- C4: every generated plan sends exactly `⌊E * 0.85⌋` of its `E` emails
to the "past" bucket and the remaining `E - ⌊E * 0.85⌋` to "future"; each
email's day offset is an independent uniform draw inside its window (1 to
past_days before the generation day for "past", 1 to future_days after it
for "future") rather than an even spread by index; and on the spec's
example configuration with seed 42 and candidate "OPP-1" the plan has
exactly 3 past meetings, 1 future meeting and 5 emails, 4 dated in the
past window and 1 in the future window — for every generator stream and
every generation time. -/
theorem claim_c4_email_allocation (cfg : ActivityConfig)
    (seedFn seedFn2 : String → Nat → Nat) (seed : Nat) (oppId : String)
    (now now2 : Int) (e f : PlannedEmail)
    (hp : 1 ≤ cfg.past_days) (hf : 1 ≤ cfg.future_days)
    (he : e ∈ (create_plan cfg seedFn seed oppId now).emails)
    (hef : f ∈ (create_plan cfg seedFn seed oppId now).emails) :
    (countEmails (create_plan cfg seedFn seed oppId now) "past"
        = (create_plan cfg seedFn seed oppId now).emails.length * 85 / 100)
    ∧ (countEmails (create_plan cfg seedFn seed oppId now) "future"
        = (create_plan cfg seedFn seed oppId now).emails.length
            - (create_plan cfg seedFn seed oppId now).emails.length * 85 / 100)
    ∧ (e.whenTag = "past" →
        now / 86400 - (cfg.past_days : Int) ≤ e.activity_date
          ∧ e.activity_date ≤ now / 86400 - 1)
    ∧ (f.whenTag = "future" →
        now / 86400 + 1 ≤ f.activity_date
          ∧ f.activity_date ≤ now / 86400 + (cfg.future_days : Int))
    ∧ (countMeetings (create_plan exampleCfg seedFn2 42 "OPP-1" now2) "past" = 3
        ∧ countMeetings (create_plan exampleCfg seedFn2 42 "OPP-1" now2) "future" = 1
        ∧ (create_plan exampleCfg seedFn2 42 "OPP-1" now2).emails.length = 5
        ∧ countEmails (create_plan exampleCfg seedFn2 42 "OPP-1" now2) "past" = 4
        ∧ countEmails (create_plan exampleCfg seedFn2 42 "OPP-1" now2) "future" = 1) := by
  obtain ⟨_, _, hcE, hcPE, hcFE⟩ := create_plan_counts cfg seedFn seed oppId now
  obtain ⟨heP, _⟩ := create_plan_email_window cfg seedFn seed oppId now e hp hf he
  obtain ⟨_, hfF⟩ := create_plan_email_window cfg seedFn seed oppId now f hp hf hef
  obtain ⟨hxP, hxF, hxE, hxPE, hxFE⟩ := create_plan_counts exampleCfg seedFn2 42 "OPP-1" now2
  have hex3 : countMeetings (create_plan exampleCfg seedFn2 42 "OPP-1" now2) "past" = 3 := by
    rw [hxP]; exact randint_fixed 3 _
  have hex1 : countMeetings (create_plan exampleCfg seedFn2 42 "OPP-1" now2) "future" = 1 := by
    rw [hxF]; exact randint_fixed 1 _
  have hex5 : (create_plan exampleCfg seedFn2 42 "OPP-1" now2).emails.length = 5 := by
    rw [hxE]; exact randint_fixed 5 _
  refine ⟨hcPE, hcFE, heP, hfF, hex3, hex1, hex5, ?_, ?_⟩
  · rw [hxPE, hex5]
  · rw [hxFE, hex5]

/-- Witness: claim_c4_email_allocation applied at the default
configuration with a concrete past email and future email of the
generated plan. -/
theorem claim_c4_email_allocation_witness :
    (1 ≤ defaultCfg.past_days ∧ 1 ≤ defaultCfg.future_days
      ∧ (create_plan defaultCfg zeroStream 42 "OPP-1" 0).emails.getD 0
          ⟨"", 0, "", []⟩ ∈ (create_plan defaultCfg zeroStream 42 "OPP-1" 0).emails
      ∧ (create_plan defaultCfg zeroStream 42 "OPP-1" 0).emails.getD 4
          ⟨"", 0, "", []⟩ ∈ (create_plan defaultCfg zeroStream 42 "OPP-1" 0).emails)
    ∧ (countEmails (create_plan defaultCfg zeroStream 42 "OPP-1" 0) "past"
        = (create_plan defaultCfg zeroStream 42 "OPP-1" 0).emails.length * 85 / 100)
    ∧ (countEmails (create_plan defaultCfg zeroStream 42 "OPP-1" 0) "future"
        = (create_plan defaultCfg zeroStream 42 "OPP-1" 0).emails.length
            - (create_plan defaultCfg zeroStream 42 "OPP-1" 0).emails.length * 85 / 100)
    ∧ (((create_plan defaultCfg zeroStream 42 "OPP-1" 0).emails.getD 0
          ⟨"", 0, "", []⟩).whenTag = "past" →
        (0 : Int) / 86400 - (defaultCfg.past_days : Int)
            ≤ ((create_plan defaultCfg zeroStream 42 "OPP-1" 0).emails.getD 0
                ⟨"", 0, "", []⟩).activity_date
          ∧ ((create_plan defaultCfg zeroStream 42 "OPP-1" 0).emails.getD 0
              ⟨"", 0, "", []⟩).activity_date ≤ (0 : Int) / 86400 - 1)
    ∧ (((create_plan defaultCfg zeroStream 42 "OPP-1" 0).emails.getD 4
          ⟨"", 0, "", []⟩).whenTag = "future" →
        (0 : Int) / 86400 + 1
            ≤ ((create_plan defaultCfg zeroStream 42 "OPP-1" 0).emails.getD 4
                ⟨"", 0, "", []⟩).activity_date
          ∧ ((create_plan defaultCfg zeroStream 42 "OPP-1" 0).emails.getD 4
              ⟨"", 0, "", []⟩).activity_date
            ≤ (0 : Int) / 86400 + (defaultCfg.future_days : Int))
    ∧ (countMeetings (create_plan exampleCfg zeroStream 42 "OPP-1" 0) "past" = 3
        ∧ countMeetings (create_plan exampleCfg zeroStream 42 "OPP-1" 0) "future" = 1
        ∧ (create_plan exampleCfg zeroStream 42 "OPP-1" 0).emails.length = 5
        ∧ countEmails (create_plan exampleCfg zeroStream 42 "OPP-1" 0) "past" = 4
        ∧ countEmails (create_plan exampleCfg zeroStream 42 "OPP-1" 0) "future" = 1) :=
  ⟨⟨by decide, by decide, by decide, by decide⟩,
   claim_c4_email_allocation defaultCfg zeroStream zeroStream 42 "OPP-1" 0 0
     ((create_plan defaultCfg zeroStream 42 "OPP-1" 0).emails.getD 0 ⟨"", 0, "", []⟩)
     ((create_plan defaultCfg zeroStream 42 "OPP-1" 0).emails.getD 4 ⟨"", 0, "", []⟩)
     (by decide) (by decide) (by decide) (by decide)⟩

/-! ## C10: "past" meetings can land in the future -/

/-- Placeholder meeting used only as the default of list indexing in
statements (never reached when the list is non-empty). -/
def dummyMeeting : PlannedMeeting := ⟨"", 0, 0, "", []⟩

/-- A validation-accepted configuration whose past window (1 day) is
smaller than its past-meeting count (exactly 3): past_days = 1,
past_min = past_max = 3, future_min = future_max = 1, no emails. -/
def c10cfg : ActivityConfig :=
  ⟨1, 21, ⟨3, 3, 1, 1, [30]⟩, ⟨0, 0⟩, ["Champion"]⟩

/-- The start of a generated "past" meeting sits
`int((past_days / total) * (index + 1))` days behind `now` PLUS a
business-hour offset of 9 to 17 hours (the offset is added, not
subtracted). -/
theorem generate_meeting_start_bounds (cfg : ActivityConfig) (now : Int)
    (index total : Nat) (r : RNG) :
    now - ((cfg.past_days * (index + 1) / total : Nat) : Int) * 86400 + 9 * 3600
        ≤ ((generate_meeting cfg now "past" index total r).1).start_datetime
      ∧ ((generate_meeting cfg now "past" index total r).1).start_datetime
        ≤ now - ((cfg.past_days * (index + 1) / total : Nat) : Int) * 86400 + 17 * 3600 := by
  obtain ⟨h1, h2⟩ := randint_bounds 9 17
    (choice cfg.meetings.duration_minutes 0 (choice meeting_subjects "" r).2).2 (by norm_num)
  have hstart : ((generate_meeting cfg now "past" index total r).1).start_datetime
      = now + (-(((cfg.past_days * (index + 1) / total : Nat) : Int)) * 86400
          + (((randint 9 17
              (choice cfg.meetings.duration_minutes 0 (choice meeting_subjects "" r).2).2).1
                : Nat) : Int) * 3600) := by
    simp [generate_meeting]
  rw [hstart]
  omega

theorem genFrom_pos_getD (f : Nat → RNG → α × RNG) (i n : Nat) (r : RNG) (d : α)
    (h : 0 < n) : (genFrom f i n r).1.getD 0 d = (f i r).1 := by
  cases n with
  | zero => omega
  | succ m => rfl

theorem getD_append_left {l1 l2 : List α} (d : α) (h : 0 < l1.length) :
    (l1 ++ l2).getD 0 d = l1.getD 0 d := by
  cases l1 with
  | nil => simp at h
  | cons a t => rfl

/-- On c10cfg every generated plan opens with a "past" meeting whose
start is strictly later than the generation time. -/
theorem c10cfg_first_meeting (seedFn : String → Nat → Nat) (seed : Nat)
    (opp : String) (now : Int) :
    0 < (create_plan c10cfg seedFn seed opp now).meetings.length
    ∧ ((create_plan c10cfg seedFn seed opp now).meetings.getD 0 dummyMeeting).whenTag = "past"
    ∧ now < ((create_plan c10cfg seedFn seed opp now).meetings.getD 0
        dummyMeeting).start_datetime := by
  rw [create_plan_eq]
  simp only []
  set r0 : RNG := ⟨seedFn (Nat.repr seed ++ ":" ++ opp), 0⟩ with hr0
  set pPast := randint c10cfg.meetings.past_min c10cfg.meetings.past_max r0 with hpPast
  set pFut := randint c10cfg.meetings.future_min c10cfg.meetings.future_max pPast.2 with hpFut
  set pEm := randint c10cfg.emails.min c10cfg.emails.max pFut.2 with hpEm
  have h3 : pPast.1 = 3 := by rw [hpPast]; exact randint_fixed 3 r0
  rw [h3]
  have hlen : (genFrom (fun i => generate_meeting c10cfg now "past" i 3) 0 3 pEm.2).1.length
      = 3 := genFrom_length ..
  have hpos : 0 < (genFrom (fun i => generate_meeting c10cfg now "past" i 3) 0 3
      pEm.2).1.length := by omega
  refine ⟨?_, ?_, ?_⟩
  · simp only [List.length_append]
    omega
  · rw [getD_append_left _ hpos, genFrom_pos_getD _ _ _ _ _ (by norm_num)]
    exact generate_meeting_whenTag ..
  · rw [getD_append_left _ hpos, genFrom_pos_getD _ _ _ _ _ (by norm_num)]
    have hb := (generate_meeting_start_bounds c10cfg now 0 3 pEm.2).1
    have hdays : c10cfg.past_days * (0 + 1) / 3 = 0 := by decide
    rw [hdays] at hb
    omega

/-- C10: the "past" day offset of a meeting at index `i` of `total` is
`int((past_days / total) * (i + 1))`, so it truncates to 0 exactly when
`past_days * (i + 1) < total`, and the drawn 9-to-17-hour offset is added
to `now`; hence whenever the offset truncates to 0 the "past" meeting
starts strictly AFTER the generation time, and on the validation-accepted
configuration c10cfg (past_days = 1 with 3 past meetings) every generated
plan contains such a meeting. -/
theorem claim_c10_past_meeting_in_future (cfg : ActivityConfig) (now now2 : Int)
    (index total : Nat) (r : RNG) (seedFn2 : String → Nat → Nat) (seed2 : Nat)
    (opp2 : String) :
    (now - ((cfg.past_days * (index + 1) / total : Nat) : Int) * 86400 + 9 * 3600
        ≤ ((generate_meeting cfg now "past" index total r).1).start_datetime
      ∧ ((generate_meeting cfg now "past" index total r).1).start_datetime
        ≤ now - ((cfg.past_days * (index + 1) / total : Nat) : Int) * 86400 + 17 * 3600)
    ∧ (cfg.past_days * (index + 1) < total →
        now < ((generate_meeting cfg now "past" index total r).1).start_datetime)
    ∧ (0 < (create_plan c10cfg seedFn2 seed2 opp2 now2).meetings.length
      ∧ ((create_plan c10cfg seedFn2 seed2 opp2 now2).meetings.getD 0
          dummyMeeting).whenTag = "past"
      ∧ now2 < ((create_plan c10cfg seedFn2 seed2 opp2 now2).meetings.getD 0
          dummyMeeting).start_datetime) := by
  obtain ⟨hlo, hhi⟩ := generate_meeting_start_bounds cfg now index total r
  refine ⟨⟨hlo, hhi⟩, ?_, c10cfg_first_meeting seedFn2 seed2 opp2 now2⟩
  intro htrunc
  have hdays : cfg.past_days * (index + 1) / total = 0 := Nat.div_eq_of_lt htrunc
  rw [hdays] at hlo
  omega

/-- Witness: claim_c10_past_meeting_in_future applied at index 0 of 3
past meetings in a 1-day window, where the offset truncates to 0. -/
theorem claim_c10_past_meeting_in_future_witness :
    c10cfg.past_days * (0 + 1) < 3
    ∧ (0 : Int) < ((generate_meeting c10cfg 0 "past" 0 3
        ⟨zeroStream "", 0⟩).1).start_datetime :=
  ⟨by decide,
   (claim_c10_past_meeting_in_future c10cfg 0 0 0 3 ⟨zeroStream "", 0⟩
     zeroStream 42 "OPP-1").2.1 (by decide)⟩

/-! ## C1: plan determinism across invocations -/

/-- The activity signatures the runner derives from a plan: one
`type:timestamp:subject` dedup key per meeting and per email. -/
def signaturesOf (p : ActivityPlan) : List String :=
  p.meetings.map
      (fun m => generate_activity_signature "meeting" (Int.repr m.start_datetime) m.subject)
    ++ p.emails.map
      (fun e => generate_activity_signature "email" (Int.repr e.activity_date) e.subject)

/-- C1 (refuted by the code): two invocations of create_plan with the
same seed and candidate but wall clocks one second apart agree on every
subject and participant set, yet produce different meeting start
timestamps, different activity signatures, and hence unequal plans —
create_plan stamps meetings with `datetime.utcnow() + offset`, so its
output is a function of the invocation time, not of (seed, candidate)
alone. -/
theorem claim_c1_wallclock_counterexample :
    ((create_plan defaultCfg zeroStream 42 "OPP-1" 0).meetings.map PlannedMeeting.subject
      = (create_plan defaultCfg zeroStream 42 "OPP-1" 1).meetings.map PlannedMeeting.subject)
    ∧ ((create_plan defaultCfg zeroStream 42 "OPP-1" 0).meetings.map PlannedMeeting.participants
      = (create_plan defaultCfg zeroStream 42 "OPP-1" 1).meetings.map
          PlannedMeeting.participants)
    ∧ ((create_plan defaultCfg zeroStream 42 "OPP-1" 0).emails.map PlannedEmail.subject
      = (create_plan defaultCfg zeroStream 42 "OPP-1" 1).emails.map PlannedEmail.subject)
    ∧ ((create_plan defaultCfg zeroStream 42 "OPP-1" 0).meetings.map
          PlannedMeeting.start_datetime
      ≠ (create_plan defaultCfg zeroStream 42 "OPP-1" 1).meetings.map
          PlannedMeeting.start_datetime)
    ∧ signaturesOf (create_plan defaultCfg zeroStream 42 "OPP-1" 0)
      ≠ signaturesOf (create_plan defaultCfg zeroStream 42 "OPP-1" 1)
    ∧ create_plan defaultCfg zeroStream 42 "OPP-1" 0
      ≠ create_plan defaultCfg zeroStream 42 "OPP-1" 1 := by
  exact ⟨by decide, by decide, by decide, by decide, by decide, by decide⟩

/-! ## C5: the scorecard score formula -/

theorem lookupTbl_mem [DecidableEq κ] (k : κ) (t : List (κ × ν)) (v : ν)
    (h : lookupTbl k t = some v) : (k, v) ∈ t := by
  induction t with
  | nil => simp [lookupTbl] at h
  | cons p t ih =>
    simp only [lookupTbl] at h
    split at h
    · rename_i hp
      obtain ⟨rfl⟩ := h
      rw [← hp]
      exact List.mem_cons_self _ _
    · exact List.mem_cons_of_mem _ (ih h)

/-- Every template the registry resolves is MEDDICC with its seven
questions. -/
theorem load_templates_lookup (cfg : ScorecardsConfig) (name : String)
    (qs : List Question) (h : lookupTbl name (load_templates cfg) = some qs) :
    qs = meddicc_questions := by
  have hmem := lookupTbl_mem name (load_templates cfg) qs h
  simp only [load_templates, List.mem_filterMap] at hmem
  obtain ⟨n, _, hn⟩ := hmem
  by_cases hM : n = "MEDDICC"
  · simp only [hM, eq_self_iff_true, if_true, Option.some.injEq, Prod.mk.injEq] at hn
    exact hn.2.symm
  · simp [hM] at hn

/-- The default ScorecardsConfig of config.py: templates ["MEDDICC"],
coverage_target 0.8, confidence_floor 0.55, mode hybrid. -/
def scDefaults : ScorecardsConfig := ⟨["MEDDICC"], 4/5, 11/20, ScMode.hybrid⟩

/-- C5: every template the registry knows has exactly 7 questions, so the
source's hard-coded divisor 7 agrees with its question count; for every
non-empty answer list the computed score is
`round(100 * (0.7 * mean(confidence) + 0.3 * (emitted / question_count)), 1)`,
and the score of an empty answer list is 0. -/
theorem claim_c5_score_formula (cfg : ScorecardsConfig) (name : String)
    (qs : List Question) (h : lookupTbl name (load_templates cfg) = some qs) :
    qs.length = 7
    ∧ compute_score [] = 0
    ∧ ∀ answers : List Answer, answers ≠ [] →
        compute_score answers
          = round1 (100 * ((7/10) * ((answers.map Answer.confidence).sum
                / (answers.length : ℚ))
              + (3/10) * ((answers.length : ℚ) / (qs.length : ℚ)))) := by
  have hqs := load_templates_lookup cfg name qs h
  subst hqs
  refine ⟨rfl, by simp [compute_score], ?_⟩
  intro answers hne
  simp only [compute_score, if_neg hne]
  have hlen : ((meddicc_questions.length : Nat) : ℚ) = 7 := by
    norm_num [meddicc_questions]
  rw [hlen]
  congr 1
  ring

/-- Witness: claim_c5_score_formula applied to the default configuration's
MEDDICC template. -/
theorem claim_c5_score_formula_witness :
    lookupTbl "MEDDICC" (load_templates scDefaults) = some meddicc_questions
    ∧ (meddicc_questions.length = 7
      ∧ compute_score [] = 0
      ∧ ∀ answers : List Answer, answers ≠ [] →
          compute_score answers
            = round1 (100 * ((7/10) * ((answers.map Answer.confidence).sum
                  / (answers.length : ℚ))
                + (3/10) * ((answers.length : ℚ) / (meddicc_questions.length : ℚ))))) :=
  ⟨by decide, claim_c5_score_formula scDefaults "MEDDICC" meddicc_questions (by decide)⟩

/-! ## C6: scorecard population -/

theorem coverage_count_le (cfg : ScorecardsConfig) (n : Nat)
    (h : cfg.coverage_target ≤ 1) : coverage_count cfg n ≤ n := by
  unfold coverage_count
  have hle : Int.floor ((n : ℚ) * cfg.coverage_target) ≤ (n : ℤ) := by
    calc Int.floor ((n : ℚ) * cfg.coverage_target)
        ≤ Int.floor ((n : ℚ)) :=
          Int.floor_le_floor (mul_le_of_le_one_right (Nat.cast_nonneg n) h)
      _ = (n : ℤ) := Int.floor_natCast n
  exact Int.toNat_le.mpr hle

theorem sample_length (pool : List α) (k : Nat) (r : RNG) (h : k ≤ pool.length) :
    (sample pool k r).1.length = k := by
  induction k generalizing pool r with
  | zero => cases pool <;> rfl
  | succ k ih =>
    cases pool with
    | nil => simp at h
    | cons a tl =>
      have hi : (r.next.1 % (a :: tl).length) < (a :: tl).length :=
        Nat.mod_lt _ (by simp)
      have hlen : ((a :: tl).eraseIdx (r.next.1 % (a :: tl).length)).length + 1
          = (a :: tl).length := List.length_eraseIdx_add_one hi
      have hk : k ≤ ((a :: tl).eraseIdx (r.next.1 % (a :: tl).length)).length := by
        omega
      have hrec := ih _ r.next.2 hk
      show ((a :: tl).getD (r.next.1 % (a :: tl).length) a ::
          (sample ((a :: tl).eraseIdx (r.next.1 % (a :: tl).length)) k r.next.2).1).length
        = k + 1
      rw [List.length_cons, hrec]

theorem sample_subset (pool : List α) (k : Nat) (r : RNG) :
    ∀ x ∈ (sample pool k r).1, x ∈ pool := by
  induction k generalizing pool r with
  | zero => intro x hx; cases pool <;> simp [sample] at hx
  | succ k ih =>
    cases pool with
    | nil => intro x hx; simp [sample] at hx
    | cons a tl =>
      intro x hx
      simp only [sample, List.mem_cons] at hx
      have hi : (r.next.1 % (a :: tl).length) < (a :: tl).length :=
        Nat.mod_lt _ (by simp)
      rcases hx with hx | hx
      · subst hx
        rw [List.getD_eq_getElem _ _ hi]
        exact List.getElem_mem hi
      · exact (List.eraseIdx_sublist _ _).subset (ih _ _ x hx)

theorem sample_nodup (pool : List α) (k : Nat) (r : RNG) (h : pool.Nodup) :
    (sample pool k r).1.Nodup := by
  induction k generalizing pool r with
  | zero => cases pool <;> simp [sample]
  | succ k ih =>
    cases pool with
    | nil => simp [sample]
    | cons a tl =>
      simp only [sample, List.nodup_cons]
      have hi : (r.next.1 % (a :: tl).length) < (a :: tl).length :=
        Nat.mod_lt _ (by simp)
      refine ⟨?_, ih _ _ ((List.eraseIdx_sublist _ _).nodup h)⟩
      intro hmem
      have hsub := sample_subset _ _ _ _ hmem
      rw [List.getD_eq_getElem _ _ hi] at hsub
      rw [List.mem_eraseIdx_iff_getElem] at hsub
      obtain ⟨j, hj, hne, heq⟩ := hsub
      exact hne ((List.Nodup.getElem_inj_iff h).mp heq)

theorem generate_confidence_val (r : RNG) :
    (generate_confidence r).1
      = round2 (1/2 + (19/20 - 1/2) * (((r.stream r.idx % 2 ^ 53 : ℕ) : ℚ) / 2 ^ 53)) := rfl

/-- Every drawn confidence is a two-decimal value in [0.5, 0.95], fixed by
round2. -/
theorem generate_confidence_bounds (r : RNG) :
    1/2 ≤ (generate_confidence r).1 ∧ (generate_confidence r).1 ≤ 19/20
      ∧ round2 (generate_confidence r).1 = (generate_confidence r).1 := by
  set u : ℚ := ((r.stream r.idx % 2 ^ 53 : ℕ) : ℚ) / 2 ^ 53 with hu
  have hu0 : 0 ≤ u := by positivity
  have hu1 : u < 1 := by
    rw [hu, div_lt_one (by positivity)]
    exact_mod_cast Nat.mod_lt _ (by positivity)
  set x : ℚ := 1/2 + (19/20 - 1/2) * u with hx
  have hx0 : 1/2 ≤ x := by rw [hx]; nlinarith
  have hx1 : x < 19/20 := by rw [hx]; nlinarith
  have hround : (50 : ℤ) ≤ round (x * 100) ∧ round (x * 100) ≤ 95 := by
    rw [round_eq]
    constructor
    · exact Int.le_floor.mpr (by push_cast; linarith)
    · have : ⌊x * 100 + 1/2⌋ < 96 := Int.floor_lt.mpr (by push_cast; linarith)
      omega
  have hval : (generate_confidence r).1 = ((round (x * 100) : ℤ) : ℚ) / 100 := by
    rw [generate_confidence_val, ← hu, ← hx]
    rfl
  refine ⟨?_, ?_, ?_⟩
  · rw [hval, le_div_iff₀ (by norm_num : (0:ℚ) < 100)]
    have hc : ((50 : ℤ) : ℚ) ≤ ((round (x * 100) : ℤ) : ℚ) := by exact_mod_cast hround.1
    push_cast at hc ⊢
    linarith
  · rw [hval, div_le_iff₀ (by norm_num : (0:ℚ) < 100)]
    have hc : ((round (x * 100) : ℤ) : ℚ) ≤ ((95 : ℤ) : ℚ) := by exact_mod_cast hround.2
    push_cast at hc ⊢
    linarith
  · rw [hval]
    unfold round2
    have harg : ((round (x * 100) : ℤ) : ℚ) / 100 * 100 = ((round (x * 100) : ℤ) : ℚ) := by
      field_simp
    rw [harg, round_intCast]

/-- Everything the answer loop emits: at most one answer per question,
each with an above-floor, in-range, two-decimal confidence, keyed by a
question of the input list. -/
theorem answers_loop_spec (cfg : ScorecardsConfig) (cg : Option (String → String))
    (qs : List Question) (r : RNG) :
    (answers_loop cfg cg qs r).1.length ≤ qs.length
    ∧ ∀ a ∈ (answers_loop cfg cg qs r).1,
        cfg.confidence_floor ≤ a.confidence
        ∧ 1/2 ≤ a.confidence ∧ a.confidence ≤ 19/20
        ∧ round2 a.confidence = a.confidence
        ∧ a.question_id ∈ qs.map Question.id := by
  induction qs generalizing r with
  | nil => simp [answers_loop]
  | cons q qs ih =>
    simp only [answers_loop]
    split
    · obtain ⟨ih1, ih2⟩ := ih ((generate_confidence r).2)
      refine ⟨le_trans ih1 (by simp), fun a ha => ?_⟩
      obtain ⟨g1, g2, g3, g4, g5⟩ := ih2 a ha
      exact ⟨g1, g2, g3, g4, by simp only [List.map_cons, List.mem_cons]; right; exact g5⟩
    · rename_i hfloor
      obtain ⟨ih1, ih2⟩ := ih ((answer_text cfg cg q (generate_confidence r).2).2)
      constructor
      · simpa using Nat.succ_le_succ ih1
      · intro a ha
        simp only [List.mem_cons] at ha
        rcases ha with rfl | ha
        · obtain ⟨h2, h3, h4⟩ := generate_confidence_bounds r
          exact ⟨not_lt.mp hfloor, h2, h3, h4, by simp⟩
        · obtain ⟨g1, g2, g3, g4, g5⟩ := ih2 a ha
          exact ⟨g1, g2, g3, g4, by simp only [List.map_cons, List.mem_cons]; right; exact g5⟩

/-- Id-injectivity of the MEDDICC question list. -/
theorem meddicc_id_inj :
    ∀ x ∈ meddicc_questions, ∀ y ∈ meddicc_questions, x.id = y.id → x = y := by
  decide

/-- C6: for every known template, populate_scorecard samples exactly
`k = int(question_count * coverage_target)` distinct questions of the
template (no replacement) from the stream seeded with
`"{seed}:{scorecard_id}"`; each drawn confidence is uniform in
[0.5, 0.95] rounded to two decimals; answers below the configured floor
are dropped, so every emitted answer carries a confidence at least the
floor and the emitted count is at most k. -/
theorem claim_c6_populate (cfg : ScorecardsConfig) (cg : Option (String → String))
    (seedFn : String → Nat → Nat) (scId name : String) (seed : Nat)
    (qs : List Question)
    (h : lookupTbl name (load_templates cfg) = some qs)
    (hct : cfg.coverage_target ≤ 1) :
    (sample qs (coverage_count cfg qs.length)
        ⟨seedFn (Nat.repr seed ++ ":" ++ scId), 0⟩).1.length
      = coverage_count cfg qs.length
    ∧ ((sample qs (coverage_count cfg qs.length)
        ⟨seedFn (Nat.repr seed ++ ":" ++ scId), 0⟩).1.map Question.id).Nodup
    ∧ (∀ q ∈ (sample qs (coverage_count cfg qs.length)
        ⟨seedFn (Nat.repr seed ++ ":" ++ scId), 0⟩).1, q ∈ qs)
    ∧ ∀ ans, populate_scorecard cfg cg seedFn scId name seed = Except.ok ans →
        ans.length ≤ coverage_count cfg qs.length
        ∧ ∀ a ∈ ans,
            cfg.confidence_floor ≤ a.confidence
            ∧ 1/2 ≤ a.confidence ∧ a.confidence ≤ 19/20
            ∧ round2 a.confidence = a.confidence
            ∧ a.question_id ∈ (sample qs (coverage_count cfg qs.length)
                ⟨seedFn (Nat.repr seed ++ ":" ++ scId), 0⟩).1.map Question.id := by
  have hqs := load_templates_lookup cfg name qs h
  have hnodup : qs.Nodup := by rw [hqs]; decide
  have hk : coverage_count cfg qs.length ≤ qs.length :=
    coverage_count_le cfg qs.length hct
  set r0 : RNG := ⟨seedFn (Nat.repr seed ++ ":" ++ scId), 0⟩ with hr0
  have hlen := sample_length qs (coverage_count cfg qs.length) r0 hk
  have hsub := sample_subset qs (coverage_count cfg qs.length) r0
  have hnd := sample_nodup qs (coverage_count cfg qs.length) r0 hnodup
  have hinj : ∀ x ∈ (sample qs (coverage_count cfg qs.length) r0).1,
      ∀ y ∈ (sample qs (coverage_count cfg qs.length) r0).1, x.id = y.id → x = y := by
    intro x hx y hy
    exact meddicc_id_inj x (hqs ▸ hsub x hx) y (hqs ▸ hsub y hy)
  refine ⟨hlen, hnd.map_on hinj, hsub, ?_⟩
  intro ans hans
  have hpop : populate_scorecard cfg cg seedFn scId name seed
      = Except.ok (answers_loop cfg cg
          (sample qs (coverage_count cfg qs.length) r0).1
          (sample qs (coverage_count cfg qs.length) r0).2).1 := by
    simp only [populate_scorecard, h, coverage_count, hr0]
  rw [hpop] at hans
  obtain ⟨rfl⟩ := hans
  obtain ⟨hl, hprops⟩ := answers_loop_spec cfg cg
    (sample qs (coverage_count cfg qs.length) r0).1
    (sample qs (coverage_count cfg qs.length) r0).2
  exact ⟨le_trans hl (le_of_eq hlen), hprops⟩

/-- Witness: claim_c6_populate at the default scorecard configuration
(coverage 0.8, floor 0.55), seed 42, scorecard "sc_006_meddicc". -/
theorem claim_c6_populate_witness :
    (sample meddicc_questions (coverage_count scDefaults meddicc_questions.length)
        ⟨zeroStream (Nat.repr 42 ++ ":" ++ "sc_006_meddicc"), 0⟩).1.length
      = coverage_count scDefaults meddicc_questions.length
    ∧ ((sample meddicc_questions (coverage_count scDefaults meddicc_questions.length)
        ⟨zeroStream (Nat.repr 42 ++ ":" ++ "sc_006_meddicc"), 0⟩).1.map Question.id).Nodup
    ∧ (∀ q ∈ (sample meddicc_questions (coverage_count scDefaults meddicc_questions.length)
        ⟨zeroStream (Nat.repr 42 ++ ":" ++ "sc_006_meddicc"), 0⟩).1, q ∈ meddicc_questions)
    ∧ ∀ ans, populate_scorecard scDefaults none zeroStream "sc_006_meddicc" "MEDDICC" 42
          = Except.ok ans →
        ans.length ≤ coverage_count scDefaults meddicc_questions.length
        ∧ ∀ a ∈ ans,
            scDefaults.confidence_floor ≤ a.confidence
            ∧ 1/2 ≤ a.confidence ∧ a.confidence ≤ 19/20
            ∧ round2 a.confidence = a.confidence
            ∧ a.question_id ∈ (sample meddicc_questions
                (coverage_count scDefaults meddicc_questions.length)
                ⟨zeroStream (Nat.repr 42 ++ ":" ++ "sc_006_meddicc"), 0⟩).1.map Question.id :=
  claim_c6_populate scDefaults none zeroStream "sc_006_meddicc" "MEDDICC" 42
    meddicc_questions (by decide) (by norm_num [scDefaults])

/-! ## C7: the ledger is an insert-if-absent, point-lookup store -/

theorem insertIfAbsent_of_present [DecidableEq κ] (k k' : κ) (v : ν) (t : List (κ × ν))
    (h : (lookupTbl k' t).isSome) (hk : k = k') : insertIfAbsent k v t = t := by
  subst hk
  simp [insertIfAbsent, h]

theorem lookupTbl_append [DecidableEq κ] (k : κ) (t t' : List (κ × ν)) :
    lookupTbl k (t ++ t')
      = match lookupTbl k t with
        | some v => some v
        | none => lookupTbl k t' := by
  induction t with
  | nil => simp [lookupTbl]
  | cons p t ih =>
    by_cases hp : p.1 = k <;> simp [lookupTbl, hp, ih]

theorem lookupTbl_insertIfAbsent_preserved [DecidableEq κ] (k k' : κ) (v v' : ν)
    (t : List (κ × ν)) (h : lookupTbl k t = some v) :
    lookupTbl k (insertIfAbsent k' v' t) = some v := by
  unfold insertIfAbsent
  split
  · exact h
  · rw [lookupTbl_append, h]

theorem lookupTbl_insertIfAbsent_isSome_of [DecidableEq κ] (k k' : κ) (v' : ν)
    (t : List (κ × ν)) (h : (lookupTbl k t).isSome) :
    (lookupTbl k (insertIfAbsent k' v' t)).isSome := by
  obtain ⟨v, hv⟩ := Option.isSome_iff_exists.mp h
  rw [lookupTbl_insertIfAbsent_preserved k k' v v' t hv]
  rfl

theorem lookupTbl_insertIfAbsent_self [DecidableEq κ] (k : κ) (v : ν)
    (t : List (κ × ν)) : (lookupTbl k (insertIfAbsent k v t)).isSome := by
  unfold insertIfAbsent
  split
  · assumption
  · rename_i habs
    rw [lookupTbl_append]
    rw [Option.not_isSome_iff_eq_none] at habs
    rw [habs]
    simp [lookupTbl]

theorem lookupTbl_insertIfAbsent_isSome_iff [DecidableEq κ] (k k' : κ) (v' : ν)
    (t : List (κ × ν)) :
    (lookupTbl k (insertIfAbsent k' v' t)).isSome = true
      ↔ (lookupTbl k t).isSome = true ∨ k = k' := by
  constructor
  · intro h
    by_cases hk : k = k'
    · exact Or.inr hk
    · left
      unfold insertIfAbsent at h
      split at h
      · exact h
      · rw [lookupTbl_append] at h
        rcases hlk : lookupTbl k t with _ | v
        · rw [hlk] at h
          simp only [lookupTbl] at h
          rw [if_neg (fun he : k' = k => hk he.symm)] at h
          simp at h
        · rfl
  · intro h
    rcases h with h | rfl
    · exact lookupTbl_insertIfAbsent_isSome_of k k' v' t h
    · exact lookupTbl_insertIfAbsent_self k v' t

/-- Activities of a ledger only grow: a stored row survives any sequence
of further writes unchanged. -/
theorem activities_lookup_applyOps (ops : List LedgerOp)
    (key : String × String × String) (row : ActRow) :
    ∀ l : Ledger, lookupTbl key l.activities = some row →
      lookupTbl key (applyOps l ops).activities = some row := by
  induction ops with
  | nil => intro l h; exact h
  | cons op ops ih =>
    intro l h
    apply ih
    cases op with
    | recAct r o ty ts subj aid c =>
      exact lookupTbl_insertIfAbsent_preserved _ _ _ _ _ h
    | recOpp r o s => exact h
    | recSc r o sid tmpl c => exact h
    | recAns r sid q conf c => exact h

theorem has_activity_applyOp (l : Ledger) (op : LedgerOp) (run opp ty ts subj : String) :
    has_activity (applyOp l op) run opp ty ts subj = true
      ↔ has_activity l run opp ty ts subj = true
        ∨ isRecordActFor run opp (generate_activity_signature ty ts subj) op := by
  cases op with
  | recOpp r o s =>
    simp [applyOp, record_opportunity, has_activity, isRecordActFor]
  | recSc r o sid tmpl c =>
    simp [applyOp, record_scorecard, has_activity, isRecordActFor]
  | recAns r sid q conf c =>
    simp [applyOp, record_scorecard_answer, has_activity, isRecordActFor]
  | recAct r o ty' ts' subj' aid c =>
    simp only [applyOp, record_activity, has_activity, isRecordActFor]
    rw [lookupTbl_insertIfAbsent_isSome_iff]
    simp only [Prod.mk.injEq]
    constructor
    · rintro (h | ⟨h1, h2, h3⟩)
      · exact Or.inl h
      · exact Or.inr ⟨h1.symm, h2.symm, h3.symm⟩
    · rintro (h | ⟨h1, h2, h3⟩)
      · exact Or.inl h
      · exact Or.inr ⟨h1.symm, h2.symm, h3.symm⟩

/-- Point-lookup over a write trace: has_activity is true exactly when
some record_activity with the same (run, opp, signature) key appears in
the trace. -/
theorem has_activity_applyOps (ops : List LedgerOp) (run opp ty ts subj : String) :
    ∀ l : Ledger,
      (has_activity (applyOps l ops) run opp ty ts subj = true
        ↔ has_activity l run opp ty ts subj = true
          ∨ ∃ op ∈ ops, isRecordActFor run opp (generate_activity_signature ty ts subj) op) := by
  induction ops with
  | nil => intro l; simp [applyOps]
  | cons op ops ih =>
    intro l
    have hstep : applyOps l (op :: ops) = applyOps (applyOp l op) ops := by
      simp [applyOps]
    rw [hstep, ih (applyOp l op), has_activity_applyOp]
    constructor
    · rintro ((h | h) | ⟨op', hop', hP⟩)
      · exact Or.inl h
      · exact Or.inr ⟨op, List.mem_cons_self .., h⟩
      · exact Or.inr ⟨op', List.mem_cons_of_mem _ hop', hP⟩
    · rintro (h | ⟨op', hop', hP⟩)
      · exact Or.inl (Or.inl h)
      · rcases List.mem_cons.mp hop' with rfl | hop'
        · exact Or.inl (Or.inr hP)
        · exact Or.inr ⟨op', hop', hP⟩

/-- C7: each record* write with a key already present is a no-op that
leaves the ledger (and so every originally stored value) unchanged;
has_activity over any write trace from the empty store is true exactly
when a record_activity with that (run, opp, signature) key completed
earlier; and a stored activities row survives any further writes
unchanged — rows are inserted, never mutated. -/
theorem claim_c7_ledger_write_once :
    (∀ (l : Ledger) (run opp ty ts subj aid c : String),
        has_activity l run opp ty ts subj = true →
          record_activity l run opp ty ts subj aid c = l)
    ∧ (∀ (l : Ledger) (run opp sel : String),
        has_opportunity l run opp = true → record_opportunity l run opp sel = l)
    ∧ (∀ (l : Ledger) (run opp sid tmpl c : String),
        has_scorecard l run opp tmpl = true → record_scorecard l run opp sid tmpl c = l)
    ∧ (∀ (l : Ledger) (run sid q : String) (conf : ℚ) (c : String),
        has_scorecard_answer l run sid q = true →
          record_scorecard_answer l run sid q conf c = l)
    ∧ (∀ (ops : List LedgerOp) (run opp ty ts subj : String),
        has_activity (applyOps Ledger.empty ops) run opp ty ts subj = true
          ↔ ∃ op ∈ ops,
              isRecordActFor run opp (generate_activity_signature ty ts subj) op)
    ∧ (∀ (l : Ledger) (ops : List LedgerOp) (key : String × String × String)
        (row : ActRow),
        lookupTbl key l.activities = some row →
          lookupTbl key (applyOps l ops).activities = some row) := by
  refine ⟨?_, ?_, ?_, ?_, ?_, ?_⟩
  · intro l run opp ty ts subj aid c h
    unfold record_activity
    simp only []
    rw [insertIfAbsent_of_present _ _ _ _ h rfl]
  · intro l run opp sel h
    unfold record_opportunity
    rw [insertIfAbsent_of_present _ _ _ _ h rfl]
  · intro l run opp sid tmpl c h
    unfold record_scorecard
    rw [insertIfAbsent_of_present _ _ _ _ h rfl]
  · intro l run sid q conf c h
    unfold record_scorecard_answer
    simp only []
    rw [insertIfAbsent_of_present _ _ _ _ h rfl]
  · intro ops run opp ty ts subj
    rw [has_activity_applyOps ops run opp ty ts subj Ledger.empty]
    have hempty : has_activity Ledger.empty run opp ty ts subj = false := rfl
    simp [hempty]
  · intro l ops key row h
    exact activities_lookup_applyOps ops key row l h

/-! ## Runner lemmas -/

/-- The log_error entry a failed event produces (none for other
outcomes). -/
def errOfEvent (e : ItemEvent) : Option ErrLog :=
  if e.outcome = ItemOutcome.failed then some ⟨stageOfKind e.kind, e.oppId⟩ else none

theorem foldItems_cons (step : Ledger → α → StepOut) (l : Ledger) (a : α) (as : List α) :
    foldItems step l (a :: as)
      = ⟨(foldItems step (step l a).ledger as).ledger,
         (step l a).creates ++ (foldItems step (step l a).ledger as).creates,
         (step l a).events ++ (foldItems step (step l a).ledger as).events,
         (step l a).errors ++ (foldItems step (step l a).ledger as).errors⟩ := rfl

theorem foldl_record_answer_opps (run_id sid created_at : String) (ans : List Answer) :
    ∀ acc : Ledger,
      (ans.foldl (fun acc a => record_scorecard_answer acc run_id sid a.question_id
        a.confidence created_at) acc).opportunities = acc.opportunities := by
  induction ans with
  | nil => intro acc; rfl
  | cons a ans ih =>
    intro acc
    rw [List.foldl_cons, ih]
    rfl

/-- One meeting application: exactly one event carrying the meeting's
identity and this candidate's id; the error log is exactly the failed
events' entries; the opportunities table is untouched. -/
theorem create_meeting_step_spec (run_id : String)
    (oracle : String → String → String → Option String) (created_at o : String)
    (l : Ledger) (m : PlannedMeeting) :
    (create_meeting run_id oracle created_at o l m).events.map eventIdent
        = [("meeting", o, meetingKey m)]
    ∧ (create_meeting run_id oracle created_at o l m).errors
        = (create_meeting run_id oracle created_at o l m).events.filterMap errOfEvent
    ∧ (∀ e ∈ (create_meeting run_id oracle created_at o l m).events, e.oppId = o)
    ∧ (create_meeting run_id oracle created_at o l m).ledger.opportunities
        = l.opportunities := by
  by_cases hha : has_activity l run_id o "meeting" (Int.repr m.start_datetime) m.subject = true
  · simp [create_meeting, hha, eventIdent, errOfEvent]
  · cases hor : oracle "meeting" o (meetingKey m) with
    | none => simp [create_meeting, hha, hor, eventIdent, errOfEvent, stageOfKind]
    | some aid => simp [create_meeting, hha, hor, eventIdent, errOfEvent, record_activity]

/-- One email application, mirroring the meeting case. -/
theorem create_email_step_spec (run_id : String)
    (oracle : String → String → String → Option String) (created_at o : String)
    (l : Ledger) (e : PlannedEmail) :
    (create_email run_id oracle created_at o l e).events.map eventIdent
        = [("email", o, emailKey e)]
    ∧ (create_email run_id oracle created_at o l e).errors
        = (create_email run_id oracle created_at o l e).events.filterMap errOfEvent
    ∧ (∀ ev ∈ (create_email run_id oracle created_at o l e).events, ev.oppId = o)
    ∧ (create_email run_id oracle created_at o l e).ledger.opportunities
        = l.opportunities := by
  by_cases hha : has_activity l run_id o "email" (Int.repr e.activity_date) e.subject = true
  · simp [create_email, hha, eventIdent, errOfEvent]
  · cases hor : oracle "email" o (emailKey e) with
    | none => simp [create_email, hha, hor, eventIdent, errOfEvent, stageOfKind]
    | some aid => simp [create_email, hha, hor, eventIdent, errOfEvent, record_activity]

/-- One scorecard template application: one event, exact error
correspondence, opportunities untouched. -/
theorem create_scorecard_step_spec (run_id : String) (scCfg : ScorecardsConfig)
    (cg : Option (String → String)) (seedFn : String → Nat → Nat) (seed : Nat)
    (scOracle : String → String → Bool) (created_at o : String)
    (l : Ledger) (tmpl : String) :
    (create_scorecard_step run_id scCfg cg seedFn seed scOracle created_at o l tmpl).events.map
        eventIdent = [("scorecard", o, tmpl)]
    ∧ (create_scorecard_step run_id scCfg cg seedFn seed scOracle created_at o l tmpl).errors
        = (create_scorecard_step run_id scCfg cg seedFn seed scOracle created_at o
            l tmpl).events.filterMap errOfEvent
    ∧ (∀ e ∈ (create_scorecard_step run_id scCfg cg seedFn seed scOracle created_at o
        l tmpl).events, e.oppId = o)
    ∧ (create_scorecard_step run_id scCfg cg seedFn seed scOracle created_at o
        l tmpl).ledger.opportunities = l.opportunities := by
  by_cases hhs : has_scorecard l run_id o tmpl = true
  · simp [create_scorecard_step, hhs, eventIdent, errOfEvent]
  · by_cases hOrc : scOracle o tmpl = false
    · simp [create_scorecard_step, hhs, hOrc, eventIdent, errOfEvent, stageOfKind]
    · cases hup : upsert_scorecard scCfg cg seedFn o tmpl seed with
      | error e =>
        simp [create_scorecard_step, hhs, hOrc, hup, eventIdent, errOfEvent, stageOfKind]
      | ok data =>
        have hopps : (create_scorecard_step run_id scCfg cg seedFn seed scOracle created_at o
            l tmpl).ledger
            = data.answers.foldl
                (fun acc a => record_scorecard_answer acc run_id data.scorecard_id
                  a.question_id a.confidence created_at)
                (record_scorecard l run_id o data.scorecard_id tmpl created_at) := by
          simp [create_scorecard_step, hhs, hOrc, hup]
        refine ⟨?_, ?_, ?_, ?_⟩
        · simp [create_scorecard_step, hhs, hOrc, hup, eventIdent]
        · simp [create_scorecard_step, hhs, hOrc, hup, errOfEvent]
        · simp [create_scorecard_step, hhs, hOrc, hup]
        · rw [hopps, foldl_record_answer_opps]
          rfl

/-- Sequential item application: every item of the list yields exactly
one event (in order), the error log is exactly the failed events'
entries, every event names this candidate, and the opportunities table is
untouched. -/
theorem foldItems_spec (step : Ledger → α → StepOut)
    (keyf : α → String × String × String) (o : String)
    (hstep : ∀ (l : Ledger) (a : α),
      (step l a).events.map eventIdent = [keyf a]
      ∧ (step l a).errors = (step l a).events.filterMap errOfEvent
      ∧ (∀ e ∈ (step l a).events, e.oppId = o)
      ∧ (step l a).ledger.opportunities = l.opportunities) (as : List α) :
    ∀ l : Ledger,
      (foldItems step l as).events.map eventIdent = as.map keyf
      ∧ (foldItems step l as).errors = (foldItems step l as).events.filterMap errOfEvent
      ∧ (∀ e ∈ (foldItems step l as).events, e.oppId = o)
      ∧ (foldItems step l as).ledger.opportunities = l.opportunities := by
  induction as with
  | nil => intro l; exact ⟨rfl, rfl, by simp [foldItems], rfl⟩
  | cons a as ih =>
    intro l
    obtain ⟨h1, h2, h3, h4⟩ := hstep l a
    obtain ⟨ih1, ih2, ih3, ih4⟩ := ih (step l a).ledger
    rw [foldItems_cons]
    refine ⟨?_, ?_, ?_, ?_⟩
    · simp only [List.map_append, h1, ih1, List.map_cons]
      rfl
    · simp only [List.filterMap_append, h2, ih2]
    · intro e he
      rcases List.mem_append.mp he with he | he
      · exact h3 e he
      · exact ih3 e he
    · simp only []
      rw [ih4, h4]

/-- The opportunities table after processing one candidate, in both the
skip and the process branch: the candidate's key is inserted if absent
(and the table is otherwise untouched). -/
theorem process_opportunity_opps (p : RunParams) (l : Ledger) (o : String) :
    (process_opportunity p l o).ledger.opportunities
      = insertIfAbsent (p.run_id, o) p.created_at l.opportunities := by
  unfold process_opportunity
  by_cases hskip : has_opportunity l p.run_id o
  · rw [if_pos hskip]
    exact (insertIfAbsent_of_present _ _ _ _ hskip rfl).symm
  · rw [if_neg hskip]
    simp only []
    rw [record_opportunity]
    simp only []
    congr 1
    obtain ⟨-, -, -, hS⟩ := foldItems_spec
      (create_scorecard_step p.run_id p.scCfg p.cg p.seedFn p.seed p.scOracle p.created_at o)
      (fun t => ("scorecard", o, t)) o
      (fun l t => create_scorecard_step_spec p.run_id p.scCfg p.cg p.seedFn p.seed
        p.scOracle p.created_at o l t)
      p.scCfg.templates _
    obtain ⟨-, -, -, hE⟩ := foldItems_spec
      (create_email p.run_id p.oracle p.created_at o)
      (fun e => ("email", o, emailKey e)) o
      (fun l e => create_email_step_spec p.run_id p.oracle p.created_at o l e)
      (p.planFn o).emails _
    obtain ⟨-, -, -, hM⟩ := foldItems_spec
      (create_meeting p.run_id p.oracle p.created_at o)
      (fun m => ("meeting", o, meetingKey m)) o
      (fun l m => create_meeting_step_spec p.run_id p.oracle p.created_at o l m)
      (p.planFn o).meetings _
    rw [hS, hE, hM]

/-- Processing a not-yet-recorded candidate: one event per planned
meeting, email and configured template, in order, independent of which
applications fail; the error log is exactly the failed events' entries;
every event names this candidate. -/
theorem process_opportunity_spec (p : RunParams) (l : Ledger) (o : String)
    (h : has_opportunity l p.run_id o = false) :
    (process_opportunity p l o).events.map eventIdent
        = itemsOf (p.planFn o) p.scCfg.templates o
    ∧ (process_opportunity p l o).errors
        = (process_opportunity p l o).events.filterMap errOfEvent
    ∧ (∀ e ∈ (process_opportunity p l o).events, e.oppId = o) := by
  have hM := foldItems_spec
    (create_meeting p.run_id p.oracle p.created_at o)
    (fun m => ("meeting", o, meetingKey m)) o
    (fun l m => create_meeting_step_spec p.run_id p.oracle p.created_at o l m)
    (p.planFn o).meetings
  have hE := foldItems_spec
    (create_email p.run_id p.oracle p.created_at o)
    (fun e => ("email", o, emailKey e)) o
    (fun l e => create_email_step_spec p.run_id p.oracle p.created_at o l e)
    (p.planFn o).emails
  have hS := foldItems_spec
    (create_scorecard_step p.run_id p.scCfg p.cg p.seedFn p.seed p.scOracle p.created_at o)
    (fun t => ("scorecard", o, t)) o
    (fun l t => create_scorecard_step_spec p.run_id p.scCfg p.cg p.seedFn p.seed
      p.scOracle p.created_at o l t)
    p.scCfg.templates
  have hcond : ¬(has_opportunity l p.run_id o = true) := by simp [h]
  unfold process_opportunity
  rw [if_neg hcond]
  simp only []
  obtain ⟨m1, m2, m3, -⟩ := hM l
  obtain ⟨e1, e2, e3, -⟩ := hE (foldItems (create_meeting p.run_id p.oracle p.created_at o)
    l (p.planFn o).meetings).ledger
  obtain ⟨s1, s2, s3, -⟩ := hS (foldItems (create_email p.run_id p.oracle p.created_at o)
    (foldItems (create_meeting p.run_id p.oracle p.created_at o) l
      (p.planFn o).meetings).ledger (p.planFn o).emails).ledger
  refine ⟨?_, ?_, ?_⟩
  · simp only [List.map_append, m1, e1, s1, itemsOf]
  · simp only [List.filterMap_append, m2, e2, s2]
  · intro ev hev
    rcases List.mem_append.mp hev with hev | hev
    · rcases List.mem_append.mp hev with hev | hev
      · exact m3 ev hev
      · exact e3 ev hev
    · exact s3 ev hev

/-! ## C2: rerunning against the same ledger is idempotent -/

theorem runAll_skips (p : RunParams) (opps : List String) :
    ∀ l : Ledger, (∀ o ∈ opps, has_opportunity l p.run_id o = true) →
      (runAll p l opps).ledger = l ∧ (runAll p l opps).creates = [] := by
  induction opps with
  | nil => intro l _; exact ⟨rfl, rfl⟩
  | cons o os ih =>
    intro l h
    have ho := h o (List.mem_cons_self o os)
    have hstep : process_opportunity p l o
        = ⟨l, [], [⟨"opportunity", o, o, ItemOutcome.skipped⟩], []⟩ := by
      unfold process_opportunity
      rw [if_pos ho]
    obtain ⟨ih1, ih2⟩ := ih l (fun o' ho' => h o' (List.mem_cons_of_mem _ ho'))
    unfold runAll at ih1 ih2 ⊢
    rw [foldItems_cons, hstep]
    exact ⟨ih1, by simpa using ih2⟩

theorem has_opportunity_process_self (p : RunParams) (l : Ledger) (o : String) :
    has_opportunity (process_opportunity p l o).ledger p.run_id o = true := by
  unfold has_opportunity
  rw [process_opportunity_opps]
  simpa using lookupTbl_insertIfAbsent_self (p.run_id, o) p.created_at l.opportunities

theorem has_opportunity_mono_process (p : RunParams) (l : Ledger) (o' o : String)
    (h : has_opportunity l p.run_id o = true) :
    has_opportunity (process_opportunity p l o').ledger p.run_id o = true := by
  unfold has_opportunity at h ⊢
  rw [process_opportunity_opps]
  simpa using lookupTbl_insertIfAbsent_isSome_of (p.run_id, o) (p.run_id, o')
    p.created_at l.opportunities (by simpa using h)

theorem has_opportunity_mono_runAll (p : RunParams) (opps : List String) :
    ∀ (l : Ledger) (o : String), has_opportunity l p.run_id o = true →
      has_opportunity (runAll p l opps).ledger p.run_id o = true := by
  induction opps with
  | nil => intro l o h; exact h
  | cons o' os ih =>
    intro l o h
    show has_opportunity (runAll p (process_opportunity p l o').ledger os).ledger
      p.run_id o = true
    exact ih _ o (has_opportunity_mono_process p l o' o h)

/-- After a run, every candidate of the list is recorded in the ledger's
opportunities table. -/
theorem runAll_records (p : RunParams) (opps : List String) :
    ∀ (l : Ledger) (o : String), o ∈ opps →
      has_opportunity (runAll p l opps).ledger p.run_id o = true := by
  induction opps with
  | nil => intro l o ho; simp at ho
  | cons o' os ih =>
    intro l o ho
    show has_opportunity (runAll p (process_opportunity p l o').ledger os).ledger
      p.run_id o = true
    rcases List.mem_cons.mp ho with rfl | ho
    · exact has_opportunity_mono_runAll p os _ o (has_opportunity_process_self p l o)
    · exact ih _ o ho

/-- C2: rerunning the orchestrator over the same candidate list with the
same run id against the ledger left by the first run performs zero
external create calls, and leaves every ledger table exactly as the
first run left it — for any initial ledger, any failure pattern in
either run, and even though the rerun's regenerated plans (stamped at a
later wall-clock time) may differ from the first run's. -/
theorem claim_c2_rerun_idempotent (p1 p2 : RunParams) (l0 : Ledger)
    (opps : List String) (hrun : p2.run_id = p1.run_id) :
    (runAll p2 (runAll p1 l0 opps).ledger opps).creates = []
    ∧ (runAll p2 (runAll p1 l0 opps).ledger opps).ledger
      = (runAll p1 l0 opps).ledger := by
  have hall : ∀ o ∈ opps,
      has_opportunity (runAll p1 l0 opps).ledger p2.run_id o = true := by
    intro o ho
    rw [hrun]
    exact runAll_records p1 opps l0 o ho
  obtain ⟨h1, h2⟩ := runAll_skips p2 opps _ hall
  exact ⟨h2, h1⟩

/-- A one-meeting plan as run 1 of the rerun witness generates it. -/
def wPlan1 : String → ActivityPlan :=
  fun o => ⟨o, [⟨"Discovery Call", 100, 30, "past", ["Champion"]⟩], []⟩

/-- The same plan regenerated at a later wall clock (shifted start). -/
def wPlan2 : String → ActivityPlan :=
  fun o => ⟨o, [⟨"Discovery Call", 160, 30, "past", ["Champion"]⟩], []⟩

/-- Scorecard configuration of the rerun witness (no templates). -/
def wScCfg : ScorecardsConfig := ⟨[], 1, 0, ScMode.heuristic⟩

/-- Run-1 parameters of the rerun witness: all creates succeed. -/
def wParams1 : RunParams :=
  ⟨"run-w", wPlan1, fun _ _ _ => some "A1", fun _ _ => true, wScCfg, none,
   zeroStream, 42, "t1"⟩

/-- Run-2 parameters of the rerun witness: same run id, shifted plans,
every external call failing. -/
def wParams2 : RunParams :=
  ⟨"run-w", wPlan2, fun _ _ _ => none, fun _ _ => false, wScCfg, none,
   zeroStream, 42, "t2"⟩

/-- Witness: claim_c2_rerun_idempotent on a two-candidate run. -/
theorem claim_c2_rerun_idempotent_witness :
    wParams2.run_id = wParams1.run_id
    ∧ ((runAll wParams2 (runAll wParams1 Ledger.empty ["OPP-1", "OPP-2"]).ledger
        ["OPP-1", "OPP-2"]).creates = []
      ∧ (runAll wParams2 (runAll wParams1 Ledger.empty ["OPP-1", "OPP-2"]).ledger
          ["OPP-1", "OPP-2"]).ledger
        = (runAll wParams1 Ledger.empty ["OPP-1", "OPP-2"]).ledger) :=
  ⟨rfl, claim_c2_rerun_idempotent wParams1 wParams2 Ledger.empty
    ["OPP-1", "OPP-2"] rfl⟩

/-! ## C8: per-item failure isolation -/

theorem process_opportunity_events_ident (p : RunParams) (l : Ledger) (o : String) :
    (process_opportunity p l o).events.map eventIdent
      = if has_opportunity l p.run_id o then [("opportunity", o, o)]
        else itemsOf (p.planFn o) p.scCfg.templates o := by
  by_cases h : has_opportunity l p.run_id o = true
  · rw [if_pos h]
    have hstep : process_opportunity p l o
        = ⟨l, [], [⟨"opportunity", o, o, ItemOutcome.skipped⟩], []⟩ := by
      unfold process_opportunity
      rw [if_pos h]
    rw [hstep]
    rfl
  · rw [if_neg h]
    refine (process_opportunity_spec p l o ?_).1
    revert h
    cases has_opportunity l p.run_id o <;> simp

/-- Which items are examined, and in which order, does not depend on the
failure oracles: swapping both oracles changes outcomes, never the
sequence of item identities, and the opportunities table evolves
identically. -/
theorem runAll_events_oracle_indep (p : RunParams)
    (oracle2 : String → String → String → Option String)
    (scOracle2 : String → String → Bool) (opps : List String) :
    ∀ l1 l2 : Ledger, l1.opportunities = l2.opportunities →
      (runAll { p with oracle := oracle2, scOracle := scOracle2 } l1 opps).events.map
          eventIdent
        = (runAll p l2 opps).events.map eventIdent
      ∧ (runAll { p with oracle := oracle2, scOracle := scOracle2 }
          l1 opps).ledger.opportunities
        = (runAll p l2 opps).ledger.opportunities := by
  induction opps with
  | nil => intro l1 l2 h; exact ⟨rfl, h⟩
  | cons o os ih =>
    intro l1 l2 h
    have hguard : has_opportunity l1
        ({ p with oracle := oracle2, scOracle := scOracle2 } : RunParams).run_id o
        = has_opportunity l2 p.run_id o := by
      unfold has_opportunity
      rw [h]
    have hevEq : (process_opportunity { p with oracle := oracle2, scOracle := scOracle2 }
          l1 o).events.map eventIdent
        = (process_opportunity p l2 o).events.map eventIdent := by
      rw [process_opportunity_events_ident, process_opportunity_events_ident, hguard]
    have hoppEq : (process_opportunity { p with oracle := oracle2, scOracle := scOracle2 }
          l1 o).ledger.opportunities
        = (process_opportunity p l2 o).ledger.opportunities := by
      rw [process_opportunity_opps, process_opportunity_opps, h]
    obtain ⟨ihE, ihO⟩ := ih _ _ hoppEq
    unfold runAll at ihE ihO ⊢
    rw [foldItems_cons, foldItems_cons]
    constructor
    · simp only [List.map_append]
      rw [hevEq, ihE]
    · exact ihO

/-- C8: processing a not-yet-recorded candidate examines every planned
meeting, then every planned email, then every configured scorecard
template, producing exactly one event per item regardless of which
applications raise; each failed item adds exactly one error entry naming
that item's stage and this candidate's id; and swapping the failure
oracles (for the external client and the scorecard collaborator) never
changes which items of which candidates a whole run examines. -/
theorem claim_c8_failure_isolation (p : RunParams)
    (oracle2 : String → String → String → Option String)
    (scOracle2 : String → String → Bool) (opps : List String)
    (l l2 : Ledger) (o : String)
    (h : has_opportunity l p.run_id o = false) :
    (process_opportunity p l o).events.map eventIdent
        = itemsOf (p.planFn o) p.scCfg.templates o
    ∧ (process_opportunity p l o).errors
        = (process_opportunity p l o).events.filterMap errOfEvent
    ∧ (∀ e ∈ (process_opportunity p l o).events, e.oppId = o)
    ∧ (runAll { p with oracle := oracle2, scOracle := scOracle2 } l2 opps).events.map
        eventIdent
      = (runAll p l2 opps).events.map eventIdent := by
  obtain ⟨h1, h2, h3⟩ := process_opportunity_spec p l o h
  exact ⟨h1, h2, h3, (runAll_events_oracle_indep p oracle2 scOracle2 opps l2 l2 rfl).1⟩

/-- wParams1 with both failure oracles swapped to all-failing ones. -/
def wParams1AllFail : RunParams :=
  { wParams1 with oracle := fun _ _ _ => none, scOracle := fun _ _ => false }

/-- Witness: claim_c8_failure_isolation at the rerun-witness parameters,
with an all-failing oracle pair swapped in. -/
theorem claim_c8_failure_isolation_witness :
    has_opportunity Ledger.empty wParams1.run_id "OPP-1" = false
    ∧ ((process_opportunity wParams1 Ledger.empty "OPP-1").events.map eventIdent
        = itemsOf (wParams1.planFn "OPP-1") wParams1.scCfg.templates "OPP-1"
      ∧ (process_opportunity wParams1 Ledger.empty "OPP-1").errors
          = (process_opportunity wParams1 Ledger.empty "OPP-1").events.filterMap errOfEvent
      ∧ (∀ e ∈ (process_opportunity wParams1 Ledger.empty "OPP-1").events, e.oppId = "OPP-1")
      ∧ (runAll wParams1AllFail Ledger.empty ["OPP-1", "OPP-2"]).events.map eventIdent
        = (runAll wParams1 Ledger.empty ["OPP-1", "OPP-2"]).events.map eventIdent) :=
  ⟨rfl, claim_c8_failure_isolation wParams1 (fun _ _ _ => none) (fun _ _ => false)
    ["OPP-1", "OPP-2"] Ledger.empty Ledger.empty "OPP-1" rfl⟩

/-! ## C9: cleanup is best-effort only in external-state mode -/

/-- C9 (refuted in tag mode by the code): with two tagged Event records
where deleting the first raises, tag-mode cleanup propagates the
exception — delete_records_by_run_id aborts its loop at the failure, the
second Event and the Task records are never attempted, and cleanup
returns no counts — whereas external-state cleanup over the same records
skips the failed deletion, attempts every remaining record and reports
the successful deletions per type. -/
theorem claim_c9_tag_cleanup_aborts :
    (cleanup_run_tag (fun r => r != "E1") (fun _ => true) ["E1", "E2"] ["T1"]).1
        = Except.error "E1"
    ∧ (cleanup_run_tag (fun r => r != "E1") (fun _ => true) ["E1", "E2"] ["T1"]).2
        = ["E1"]
    ∧ cleanup_run_external (fun r => r != "E1")
        [("E1", "meeting"), ("E2", "meeting"), ("T1", "email")]
      = ((1, 1), ["E1", "E2", "T1"]) := by
  exact ⟨rfl, rfl, rfl⟩

end DemoGen
